import Mathlib

/-!
Verification of the sna-artemis-agent core against its natural-language
specification.  Each Python component named in the claims is shallowly
embedded as executable Lean definitions translated from the source files
under `service/agent/`, and the claims are settled as theorems about these
definitions.
-/

set_option maxHeartbeats 1000000

namespace Agent

/-! ## Python value model

Dynamic Python values that flow through the agent: JSON scalars plus the
extra types recognized by `AgentSerializer` (`utils/serde.py`): `bytes`,
`datetime`, `date` and `Decimal`.  A `datetime`/`date` is identified by its
`isoformat()` rendering and a `Decimal` by its `str()` rendering, which is
all the agent ever observes of them. -/

inductive PyVal where
  | none
  | bool (b : Bool)
  | int (n : Int)
  | str (s : String)
  | bytes (bs : List Nat)
  | datetime (iso : String)
  | date (iso : String)
  | decimal (rep : String)
  | list (items : List PyVal)
  | dict (entries : List (String × PyVal))
deriving Repr, Inhabited

/-- Python dictionaries with string keys, as used for events and result
envelopes.  Keys are unique (Python `dict` semantics); the operations below
preserve that and behave like Python `dict` even on degenerate inputs. -/
abbrev Dict := List (String × PyVal)

/-- `d[k]` lookup returning the first binding (Python dicts have unique keys). -/
def dictLookup (d : Dict) (k : String) : Option PyVal :=
  (d.find? (fun e => e.1 == k)).map (·.2)

/-- `k in d` membership test. -/
def dictContains (d : Dict) (k : String) : Bool :=
  d.any (fun e => e.1 == k)

/-- `d[k] = v`: replace the binding in place if present, else append
(Python dicts preserve insertion order and have unique keys). -/
def dictSet (d : Dict) (k : String) (v : PyVal) : Dict :=
  match d with
  | [] => [(k, v)]
  | e :: rest => if e.1 == k then (k, v) :: rest else e :: dictSet rest k v

/-- Python errors that the embedded code can raise. -/
inductive PyErr where
  | keyError (k : String)
  | valueError (msg : String)
  | typeError (msg : String)
deriving Repr, DecidableEq

/-- `del d[k]`: raises `KeyError` when the key is absent. -/
def dictDel (d : Dict) (k : String) : Except PyErr Dict :=
  if dictContains d k then .ok (d.filter (fun e => e.1 != k))
  else .error (.keyError k)

/-- Python truthiness for the values above.  (`Decimal` never reaches a
truthiness test in the embedded code paths, its case is immaterial.) -/
def truthy : PyVal → Bool
  | .none => false
  | .bool b => b
  | .int n => n != 0
  | .str s => s != ""
  | .bytes bs => !bs.isEmpty
  | .datetime _ => true
  | .date _ => true
  | .decimal _ => true
  | .list l => !l.isEmpty
  | .dict d => !d.isEmpty

/-! ## Base64 (`base64.b64encode` / `base64.b64decode`)

Used by `AgentSerializer` to tag `bytes` values.  Standard alphabet with
`=` padding, operating on byte values `< 256`. -/

def b64Alphabet : List Char :=
  "ABCDEFGHIJKLMNOPQRSTUVWXYZabcdefghijklmnopqrstuvwxyz0123456789+/".toList

def b64Char (n : Nat) : Char := b64Alphabet.getD n 'A'

def b64CharIndex (c : Char) : Nat :=
  (b64Alphabet.indexOf c)

/-- Encode a byte list as base64 text (chunks of 3 bytes into 4 digits). -/
def b64encode : List Nat → String
  | [] => ""
  | [b0] =>
    let n := b0 * 16
    String.mk [b64Char (n / 64), b64Char (n % 64)] ++ "=="
  | [b0, b1] =>
    let n := (b0 * 256 + b1) * 4
    String.mk [b64Char (n / 4096), b64Char (n / 64 % 64), b64Char (n % 64)] ++ "="
  | b0 :: b1 :: b2 :: rest =>
    let n := b0 * 65536 + b1 * 256 + b2
    String.mk [b64Char (n / 262144), b64Char (n / 4096 % 64),
               b64Char (n / 64 % 64), b64Char (n % 64)] ++ b64encode rest

/-- Decode base64 text produced by `b64encode` (groups of four digits,
trailing `=` padding marking a 1- or 2-byte final group). -/
def b64decodeList : List Char → List Nat
  | c0 :: c1 :: c2 :: c3 :: rest =>
    if c2 = '=' ∧ c3 = '=' ∧ rest = [] then
      [(b64CharIndex c0 * 64 + b64CharIndex c1) / 16]
    else if c3 = '=' ∧ rest = [] then
      let n := (b64CharIndex c0 * 4096 + b64CharIndex c1 * 64 + b64CharIndex c2) / 4
      [n / 256, n % 256]
    else
      let n := b64CharIndex c0 * 262144 + b64CharIndex c1 * 4096 +
               b64CharIndex c2 * 64 + b64CharIndex c3
      n / 65536 :: n / 256 % 256 :: n % 256 :: b64decodeList rest
  | _ => []

def b64decode (s : String) : List Nat := b64decodeList s.toList

/-! ## `utils/serde.py` -/

def ATTRIBUTE_NAME_TYPE : String := "__type__"
def ATTRIBUTE_NAME_DATA : String := "__data__"
def ATTRIBUTE_VALUE_TYPE_BYTES : String := "bytes"
def ATTRIBUTE_VALUE_TYPE_DATETIME : String := "datetime"
def ATTRIBUTE_VALUE_TYPE_DATE : String := "date"
def ATTRIBUTE_VALUE_TYPE_DECIMAL : String := "decimal"
def ATTRIBUTE_NAME_TRACE_ID : String := "__mcd_trace_id__"
def ATTRIBUTE_NAME_RESULT : String := "__mcd_result__"
def ATTRIBUTE_NAME_ERROR : String := "__mcd_error__"
def ATTRIBUTE_NAME_ERROR_TYPE : String := "__mcd_error_type__"
def ATTRIBUTE_NAME_ERROR_ATTRS : String := "__mcd_error_attrs__"

namespace AgentSerializer

/-- `AgentSerializer.serialize`: tag datetime/date/decimal/bytes values;
all other values are returned unchanged (the dataclass branch does not
apply to the dynamic values modelled here). -/
def serialize (value : PyVal) : PyVal :=
  match value with
  | .datetime iso =>
    .dict [(ATTRIBUTE_NAME_TYPE, .str ATTRIBUTE_VALUE_TYPE_DATETIME),
           (ATTRIBUTE_NAME_DATA, .str iso)]
  | .date iso =>
    .dict [(ATTRIBUTE_NAME_TYPE, .str ATTRIBUTE_VALUE_TYPE_DATE),
           (ATTRIBUTE_NAME_DATA, .str iso)]
  | .decimal rep =>
    .dict [(ATTRIBUTE_NAME_TYPE, .str ATTRIBUTE_VALUE_TYPE_DECIMAL),
           (ATTRIBUTE_NAME_DATA, .str rep)]
  | .bytes bs =>
    .dict [(ATTRIBUTE_NAME_TYPE, .str ATTRIBUTE_VALUE_TYPE_BYTES),
           (ATTRIBUTE_NAME_DATA, .str (b64encode bs))]
  | v => v

end AgentSerializer

/-- `decode_dict_value`: only the `bytes` tag is decoded; any other tagged
dictionary is returned unchanged. -/
def decode_dict_value (value : Dict) : PyVal :=
  match dictLookup value ATTRIBUTE_NAME_TYPE with
  | some (.str t) =>
    if t = ATTRIBUTE_VALUE_TYPE_BYTES then
      match dictLookup value ATTRIBUTE_NAME_DATA with
      | some (.str s) => .bytes (b64decode s)
      | _ => .bytes []
    else .dict value
  | _ => .dict value

/-- `decode_dictionary`: decode tagged sub-dictionaries recursively. -/
def decode_dictionary : Dict → Dict
  | [] => []
  | (key, .dict inner) :: rest =>
    (if dictContains inner ATTRIBUTE_NAME_TYPE then (key, decode_dict_value inner)
     else (key, .dict (decode_dictionary inner))) :: decode_dictionary rest
  | (key, v) :: rest => (key, v) :: decode_dictionary rest

/-! ## `json.dumps(result, cls=AgentSerializer)`

Python's `json.dumps` with default options: separators `", "` and `": "`,
`ensure_ascii=True` (non-ASCII characters escaped as `\uXXXX`).  Values the
standard encoder cannot handle are first run through
`AgentSerializer.default`, i.e. replaced by their tagged dictionaries;
those contain only base64/ISO/decimal text, which needs no escaping, so
they are rendered directly. -/

def hexDigit (n : Nat) : Char :=
  "0123456789abcdef".toList.getD (n % 16) '0'

def hex4 (n : Nat) : String :=
  String.mk [hexDigit (n / 4096), hexDigit (n / 256), hexDigit (n / 16), hexDigit n]

/-- JSON string escaping as performed by `json.dumps` with `ensure_ascii`. -/
def escapeChar (c : Char) : String :=
  if c = '"' then "\\\""
  else if c = '\\' then "\\\\"
  else if c = '\n' then "\\n"
  else if c = '\t' then "\\t"
  else if c = '\r' then "\\r"
  else if c = '\x08' then "\\b"
  else if c = '\x0c' then "\\f"
  else if c.toNat < 32 ∨ c.toNat > 126 then
    if c.toNat < 65536 then "\\u" ++ hex4 c.toNat
    else
      let n := c.toNat - 65536
      "\\u" ++ hex4 (55296 + n / 1024) ++ "\\u" ++ hex4 (56320 + n % 1024)
  else String.singleton c

def escapeString (s : String) : String :=
  String.join (s.toList.map escapeChar)

def quoted (s : String) : String := "\"" ++ escapeString s ++ "\""

/-- Rendering of a two-entry tag dictionary produced by `AgentSerializer`. -/
def dumpsTagged (tag data : String) : String :=
  "\x7b" ++ quoted ATTRIBUTE_NAME_TYPE ++ ": " ++ quoted tag ++ ", " ++
        quoted ATTRIBUTE_NAME_DATA ++ ": " ++ quoted data ++ "\x7d"

mutual

def dumps : PyVal → String
  | .none => "null"
  | .bool b => if b then "true" else "false"
  | .int n => toString n
  | .str s => quoted s
  | .datetime iso => dumpsTagged ATTRIBUTE_VALUE_TYPE_DATETIME iso
  | .date iso => dumpsTagged ATTRIBUTE_VALUE_TYPE_DATE iso
  | .decimal rep => dumpsTagged ATTRIBUTE_VALUE_TYPE_DECIMAL rep
  | .bytes bs => dumpsTagged ATTRIBUTE_VALUE_TYPE_BYTES (b64encode bs)
  | .list items => "[" ++ dumpsList items ++ "]"
  | .dict entries => "\x7b" ++ dumpsDict entries ++ "\x7d"

def dumpsList : List PyVal → String
  | [] => ""
  | [v] => dumps v
  | v :: rest => dumps v ++ ", " ++ dumpsList rest

def dumpsDict : List (String × PyVal) → String
  | [] => ""
  | [(k, v)] => quoted k ++ ": " ++ dumps v
  | (k, v) :: rest => quoted k ++ ": " ++ dumps v ++ ", " ++ dumpsDict rest

end

/-! ## `sna/operation_result.py` -/

/-- `OperationAttributes`: the context carried through the asynchronous
stored-procedure round trip. -/
structure OperationAttributes where
  operation_id : String
  trace_id : String
  compress_response_file : Bool
  response_size_limit_bytes : Int
  job_type : Option String := Option.none
deriving Repr, DecidableEq

/-- `AgentOperationResult`: the union-style carrier consumed by the
results publisher. -/
structure AgentOperationResult where
  operation_id : String
  result : Option Dict := Option.none
  query_id : Option String := Option.none
  operation_attrs : Option OperationAttributes := Option.none
deriving Repr

/-! ## `sna/results_processor.py` -/

namespace ResultsProcessor

/-- `ResultsProcessor._serialize_result`: `json.dumps(result, cls=AgentSerializer)`. -/
def serialize_result (result : Dict) : String := dumps (.dict result)

/-- `ResultsProcessor._calculate_result_size`: UTF-8 byte length of the
serialized result. -/
def calculate_result_size (result : Dict) : Nat :=
  (serialize_result result).utf8ByteSize

/-- `ResultsProcessor._must_use_pre_signed_url`: `0 < limit < size`. -/
def must_use_pre_signed_url (operation_attrs : OperationAttributes) (size : Nat) : Bool :=
  0 < operation_attrs.response_size_limit_bytes ∧
    operation_attrs.response_size_limit_bytes < (size : Int)

/-- `ResultsProcessor.process_result`, parameterized by the storage
`generate_presigned_url` call (an external collaborator) and the configured
expiration.  Also returns the payload written to storage (`Option.none`
when no spill happened) so theorems can talk about the upload.  Gzip
compression of the spilled contents is recorded by the `compressed` flag
the envelope carries; mirroring the byte-level gzip stream is immaterial to
the claims. -/
def process_result (presign : String → Nat → String) (expiration_seconds : Nat)
    (result : Dict) (operation_attrs : OperationAttributes) : Except PyErr Dict :=
  let size := calculate_result_size result
  if must_use_pre_signed_url operation_attrs size then
    let key := "responses/" ++ operation_attrs.trace_id
    let compressed := operation_attrs.compress_response_file
    let url := presign key expiration_seconds
    let r1 := dictSet result "__mcd_result_location__" (.str url)
    let r2 := dictSet r1 "__mcd_result_compressed__" (.bool compressed)
    dictDel r2 ATTRIBUTE_NAME_RESULT
  else .ok result

end ResultsProcessor

/-! ## `sna/sna_service.py`: the publish path -/

/-- `_ATTR_NAME_TRACE_ID` in `sna_service.py` — note this is the plain
`"trace_id"` constant, distinct from `ATTRIBUTE_NAME_TRACE_ID =
"__mcd_trace_id__"` imported from `serde.py`. -/
def SNA_ATTR_NAME_TRACE_ID : String := "trace_id"

namespace SnaService

/-- `SnaService._push_backend_results`: inject the trace id when the
envelope has no `"trace_id"` key, then run the result processor; the
returned dictionary is what `BackendClient.push_results` receives. -/
def push_backend_results (presign : String → Nat → String) (expiration_seconds : Nat)
    (result : Dict) (operation_attrs : Option OperationAttributes) : Except PyErr Dict :=
  match operation_attrs with
  | some attrs =>
    let result :=
      if !(dictContains result SNA_ATTR_NAME_TRACE_ID) then
        dictSet result ATTRIBUTE_NAME_TRACE_ID (.str attrs.trace_id)
      else result
    ResultsProcessor.process_result presign expiration_seconds result attrs
  | Option.none => .ok result

/-- The branch taken by `SnaService._push_results` for a carrier. -/
inductive PushOutcome where
  | forQuery (operation_id query_id : String) (attrs : OperationAttributes)
  | backend (operation_id : String) (result : Dict) (attrs : Option OperationAttributes)
  | invalidResult (operation_id : String)
deriving Repr

/-- `SnaService._push_results` dispatch: `if result.query_id and
result.operation_attrs is not None: … elif result.result is not None: …
else: log "Invalid result"`. -/
def push_results_dispatch (r : AgentOperationResult) : PushOutcome :=
  match r.query_id, r.operation_attrs with
  | some qid, some attrs =>
    if qid ≠ "" then .forQuery r.operation_id qid attrs
    else
      match r.result with
      | some res => .backend r.operation_id res r.operation_attrs
      | Option.none => .invalidResult r.operation_id
  | _, _ =>
    match r.result with
    | some res => .backend r.operation_id res r.operation_attrs
    | Option.none => .invalidResult r.operation_id

end SnaService

/-! ## `sna/results_publisher.py` and the async-completion call

`ResultsPublisher.schedule_push_query_results(self, operation_id, query_id)`
takes exactly two arguments besides `self`, while the router
(`SnaService._schedule_push_results_for_query`, called from
`query_completed`) invokes it with three positional arguments
`(operation_id, query_id, operation_attrs)`.  Python resolves argument
lists dynamically, so the mismatch surfaces as a `TypeError` at call time;
the call is therefore modelled over an explicit argument list. -/

inductive PubArg where
  | str (s : String)
  | attrs (a : OperationAttributes)
deriving Repr

namespace ResultsPublisher

/-- Calling `ResultsPublisher.schedule_push_query_results` with a
positional argument list.  The method body (from
`results_publisher.py:28-31`) builds
`AgentOperationResult(operation_id=operation_id, query_id=query_id)` —
no `operation_attrs`; any other arity raises `TypeError`. -/
def schedule_push_query_results_call (args : List PubArg) :
    Except PyErr AgentOperationResult :=
  match args with
  | [.str operation_id, .str query_id] =>
    .ok { operation_id := operation_id, query_id := some query_id }
  | _ =>
    .error (.typeError
      "schedule_push_query_results() takes 3 positional arguments but 4 were given")

end ResultsPublisher

namespace SnaService

/-- `SnaService.query_completed` / `_schedule_push_results_for_query`:
decode OperationAttributes from the callback JSON (modelled as the decoded
attributes, `OperationAttributes.from_json` being its inverse) and call
`results_publisher.schedule_push_query_results(operation_id, query_id,
operation_attributes)` — three positional arguments. -/
def query_completed (operation_attributes : OperationAttributes) (query_id : String) :
    Except PyErr AgentOperationResult :=
  ResultsPublisher.schedule_push_query_results_call
    [.str operation_attributes.operation_id, .str query_id, .attrs operation_attributes]

end SnaService

/-! ## `sna/queries_service.py` -/

namespace QueriesService

def ERROR_INSUFFICIENT_PRIVILEGES : Int := 3001
def ERROR_SHARED_DATABASE_NO_LONGER_AVAILABLE : Int := 3030
def ERROR_OBJECT_DOES_NOT_EXIST : Int := 2043
def ERROR_QUERY_CANCELLED : Int := 604
def ERROR_STATEMENT_TIMED_OUT : Int := 630

def PROGRAMMING_ERRORS : List Int :=
  [ERROR_INSUFFICIENT_PRIVILEGES,
   ERROR_SHARED_DATABASE_NO_LONGER_AVAILABLE,
   ERROR_OBJECT_DOES_NOT_EXIST,
   ERROR_QUERY_CANCELLED,
   ERROR_STATEMENT_TIMED_OUT]

/-- Python `str.strip()` whitespace characters. -/
def isPySpace (c : Char) : Bool :=
  c = ' ' ∨ c = '\t' ∨ c = '\n' ∨ c = '\r' ∨ c = '\x0b' ∨ c = '\x0c'

/-- Python `str.strip()`. -/
def pyStripList (cs : List Char) : List Char :=
  ((cs.dropWhile isPySpace).reverse.dropWhile isPySpace).reverse

def pyStrip (s : String) : String := String.mk (pyStripList s.toList)

/-- Characters after the first `':'`, or `Option.none` when there is none
(`msg[(msg.index(":") + 1):]` guarded by `":" in msg`). -/
def afterFirstColon : List Char → Option (List Char)
  | [] => Option.none
  | c :: rest => if c = ':' then some rest else afterFirstColon rest

/-- `QueriesService._get_error_message`: strip the prefix up to and
including the first colon and surrounding whitespace; return the message
unchanged when it contains no colon. -/
def get_error_message (msg : String) : String :=
  match afterFirstColon msg.toList with
  | some rest => String.mk (pyStripList rest)
  | Option.none => msg

/-- `QueriesService.result_for_query_failed` (the `operation_id` parameter
is only logged). -/
def result_for_query_failed (_operation_id : String) (code : Int)
    (msg : String) (state : String) : Dict :=
  let msg := get_error_message msg
  let error_type :=
    if code ∈ PROGRAMMING_ERRORS then "ProgrammingError" else "DatabaseError"
  [(ATTRIBUTE_NAME_ERROR, .str msg),
   (ATTRIBUTE_NAME_ERROR_ATTRS,
     .dict [("errno", .int code), ("sqlstate", .str state)]),
   (ATTRIBUTE_NAME_ERROR_TYPE, .str error_type)]

end QueriesService

/-! ## `backend/backend_client.py` -/

/-- An HTTP response from the orchestrator, as observed by
`BackendClient._execute_operation_with_retries`: the status code and the
result of parsing the body as JSON (`Option.none` when the body does not
parse — in particular when it is empty, since the empty string is not
valid JSON). -/
structure HttpResponse where
  status : Nat
  jsonBody : Option PyVal
deriving Repr

/-- Exceptions arising inside the `try` block of
`_execute_operation_with_retries`. -/
inductive ReqException where
  | httpError (status : Nat)
  | jsonDecodeError
deriving Repr, DecidableEq

/-- `str(ex)` for the exceptions above (the exact library text is
immaterial to the claims; what matters is which exception is rendered). -/
def exceptionMessage : ReqException → String
  | .httpError status => "HTTP error for status " ++ toString status
  | .jsonDecodeError => "Expecting value: line 1 column 1 (char 0)"

namespace BackendClient

/-- `requests.Response.raise_for_status()`: raises for 4xx/5xx. -/
def raise_for_status (resp : HttpResponse) : Except ReqException Unit :=
  if 400 ≤ resp.status ∧ resp.status < 600 then .error (.httpError resp.status)
  else .ok ()

/-- `response.json()`: the parsed body, raising when it does not parse. -/
def response_json (resp : HttpResponse) : Except ReqException PyVal :=
  match resp.jsonBody with
  | some v => .ok v
  | Option.none => .error .jsonDecodeError

/-- The `try` block of `_execute_operation_with_retries`:
`response.raise_for_status(); return response.json() or {"error": "empty
response"}`. -/
def execute_operation_body (resp : HttpResponse) : Except ReqException PyVal := do
  raise_for_status resp
  let v ← response_json resp
  pure (if truthy v then v else .dict [("error", .str "empty response")])

/-- `BackendClient.execute_operation` applied to the response the
orchestrator produced: every exception in the body is caught and turned
into `{"error": str(ex)}`, so the call never raises.  (The `@retry`
decorator never fires because the body never raises out.) -/
def execute_operation (resp : HttpResponse) : PyVal :=
  match execute_operation_body resp with
  | .ok v => v
  | .error ex => .dict [("error", .str (exceptionMessage ex))]

end BackendClient

/-! ## `storage/storage_service.py` -/

/-- Exceptions surfacing from a storage operation: the typed storage-client
errors from `base_storage_client.py` plus `ValueError` (with Python class
name `"ValueError"`) raised by the service itself. -/
inductive StorageExc where
  | notFoundError (msg : String)
  | permissionsError (msg : String)
  | genericError (msg : String)
  | valueError (msg : String)
deriving Repr, DecidableEq

/-- `str(ex)` for a storage exception. -/
def storageExcMessage : StorageExc → String
  | .notFoundError msg => msg
  | .permissionsError msg => msg
  | .genericError msg => msg
  | .valueError msg => msg

/-- The behaviour of the underlying storage client
(`StageReaderWriter` in production; injected in tests), one function per
abstract operation of `BaseStorageClient`. -/
structure StorageClient where
  read : String → Bool → Option String → Except StorageExc PyVal
  read_json : String → Except StorageExc PyVal
  write : String → PyVal → Except StorageExc Unit
  delete : String → Except StorageExc Unit
  generate_presigned_url : String → Nat → Except StorageExc PyVal
  is_bucket_private : Except StorageExc PyVal

namespace StorageService

def ERROR_TYPE_NOTFOUND : String := "NotFound"
def ERROR_TYPE_PERMISSIONS : String := "Permissions"

/-- `StorageService._get_error_type`: typed storage errors map to the
fixed strings, anything else to its Python class name. -/
def get_error_type : StorageExc → String
  | .permissionsError _ => ERROR_TYPE_PERMISSIONS
  | .notFoundError _ => ERROR_TYPE_NOTFOUND
  | .genericError _ => "GenericError"
  | .valueError _ => "ValueError"

/-- `StorageService._get_key`: `operation.get("key")`, raising
`ValueError("Key is required")` when falsy (absent or empty). -/
def get_key (operation : Dict) : Except StorageExc String :=
  match dictLookup operation "key" with
  | some v =>
    if truthy v then
      match v with
      | .str k => .ok k
      | _ => .ok ""
    else .error (.valueError "Key is required")
  | Option.none => .error (.valueError "Key is required")

/-- `StorageService._read`: bytes contents are re-tagged through
`AgentSerializer.serialize`. -/
def read_method (client : StorageClient) (operation : Dict) : Except StorageExc PyVal := do
  let key ← get_key operation
  let decompress := truthy ((dictLookup operation "decompress").getD (.bool false))
  let encoding :=
    match dictLookup operation "encoding" with
    | some (.str e) => some e
    | _ => Option.none
  let contents ← client.read key decompress encoding
  match contents with
  | .bytes bs => pure (AgentSerializer.serialize (.bytes bs))
  | v => pure v

def read_json_method (client : StorageClient) (operation : Dict) :
    Except StorageExc PyVal := do
  let key ← get_key operation
  client.read_json key

/-- `StorageService._write`: only a string/bytes `obj_to_write` triggers a
write (and hence the key check); any other truthy value raises; a falsy or
absent value does nothing and succeeds. -/
def write_method (client : StorageClient) (operation : Dict) : Except StorageExc PyVal := do
  let obj := dictLookup operation "obj_to_write"
  match obj with
  | some (.str s) => do
    let key ← get_key operation
    client.write key (.str s)
    pure (.dict [])
  | some (.bytes bs) => do
    let key ← get_key operation
    client.write key (.bytes bs)
    pure (.dict [])
  | some v =>
    if truthy v then
      .error (.valueError "Invalid type for obj_to_write parameter")
    else pure (.dict [])
  | Option.none => pure (.dict [])

def delete_method (client : StorageClient) (operation : Dict) :
    Except StorageExc PyVal := do
  let key ← get_key operation
  client.delete key
  pure (.dict [])

def pre_signed_url_method (client : StorageClient) (operation : Dict) :
    Except StorageExc PyVal := do
  let key ← get_key operation
  let expiration :=
    match dictLookup operation "expiration" with
    | some (.int n) => n.toNat
    | _ => 300
  client.generate_presigned_url key expiration

def is_bucket_private_method (client : StorageClient) (_operation : Dict) :
    Except StorageExc PyVal :=
  client.is_bucket_private

/-- The `self._mapping` dispatch table. -/
def method_for_type (client : StorageClient) (t : String) :
    Option (Dict → Except StorageExc PyVal) :=
  if t = "storage_read" then some (read_method client)
  else if t = "storage_read_json" then some (read_json_method client)
  else if t = "storage_write" then some (write_method client)
  else if t = "storage_delete" then some (delete_method client)
  else if t = "storage_generate_presigned_url" then some (pre_signed_url_method client)
  else if t = "storage_is_bucket_private" then some (is_bucket_private_method client)
  else Option.none

/-- Rendering of `operation_type` inside the error f-string (`None` when
the key is absent or not a string). -/
def operationTypeText : Option PyVal → String
  | some (.str t) => t
  | _ => "None"

/-- `StorageService.execute_operation`: dispatch on `operation.type`,
wrap the outcome in a result envelope or an error envelope. -/
def execute_operation (client : StorageClient) (event : Dict) : Dict :=
  let operation : Dict :=
    match dictLookup event "operation" with
    | some (.dict op) => op
    | _ => []
  let operation_type := dictLookup operation "type"
  let method :=
    match operation_type with
    | some (.str t) => method_for_type client t
    | _ => Option.none
  match method with
  | Option.none =>
    [(ATTRIBUTE_NAME_ERROR,
      .str ("Invalid operation type: " ++ operationTypeText operation_type))]
  | some m =>
    match m operation with
    | .ok storage_result => [(ATTRIBUTE_NAME_RESULT, storage_result)]
    | .error ex =>
      [(ATTRIBUTE_NAME_ERROR_TYPE, .str (get_error_type ex)),
       (ATTRIBUTE_NAME_ERROR, .str (storageExcMessage ex))]

end StorageService

/-! ## `sna/config/config_manager.py` -/

namespace ConfigurationManager

/-- `int(value)` — `Option.none` models the `ValueError` raised on text
that is not an integer literal. -/
def pyInt (s : String) : Option Int :=
  (pyStripHelper s).toInt?
where
  pyStripHelper (s : String) : String := s.trim

/-- `ConfigurationManager.get_str_value`: `self._get_value(key) or
default_value` — the persisted value wins only when truthy (non-empty). -/
def get_str_value (persistence : String → Option String)
    (key : String) (default_value : String) : String :=
  match persistence key with
  | some v => if v ≠ "" then v else default_value
  | Option.none => default_value

/-- `ConfigurationManager.get_int_value`: `int(value)` when the persisted
value is truthy, else the default; the error case models the exception
`int` can raise. -/
def get_int_value (persistence : String → Option String)
    (key : String) (default_value : Int) : Except PyErr Int :=
  match persistence key with
  | some v =>
    if v ≠ "" then
      match pyInt v with
      | some n => .ok n
      | Option.none => .error (.valueError "invalid literal for int()")
    else .ok default_value
  | Option.none => .ok default_value

/-- `ConfigurationManager.get_bool_value`: case-insensitive comparison
with `"true"` when the persisted value is truthy, else the default. -/
def get_bool_value (persistence : String → Option String)
    (key : String) (default_value : Bool) : Bool :=
  match persistence key with
  | some v => if v ≠ "" then v.toLower = "true" else default_value
  | Option.none => default_value

end ConfigurationManager

/-! ## `events/ack_sender.py`

`AckSender` keeps a heap (`heapq.heappush` into a list, drained with
`list.pop(0)`) of `PendingAckOperation(scheduled_time, operation_id,
completed)` plus a dict `operation_id → PendingAckOperation`.  The mutable
`completed` tombstone shared between heap and dict is modelled by giving
every scheduled entry a fresh numeric identity `eid` and keeping the set of
tombstoned identities on the side.  Times are naturals (the claims do not
depend on fractional clocks). -/

namespace AckSender

structure PendingEntry where
  scheduled_time : Nat
  operation_id : String
  eid : Nat
deriving Repr, DecidableEq

/-- `dataclass(order=True)` comparison on `PendingAckOperation`:
lexicographic on `(scheduled_time, operation_id, completed)`; the current
`completed` flags are supplied by the tombstone set. -/
def entryLt (tombs : List Nat) (a b : PendingEntry) : Bool :=
  if a.scheduled_time ≠ b.scheduled_time then a.scheduled_time < b.scheduled_time
  else if a.operation_id ≠ b.operation_id then a.operation_id < b.operation_id
  else !(a.eid ∈ tombs) && (b.eid ∈ tombs)

/-- `heapq._siftdown`: move the appended item towards the root.  The walk
from `pos` to the root strictly decreases `pos`, so running it on `fuel =
pos` steps of budget computes exactly the Python loop (the budget never
runs out); the explicit budget keeps the recursion structural. -/
def siftdown (tombs : List Nat) : Nat → Array PendingEntry → PendingEntry → Nat →
    Array PendingEntry
  | 0, heap, newitem, pos => heap.setD pos newitem
  | fuel + 1, heap, newitem, pos =>
    if 0 < pos then
      let parentpos := (pos - 1) / 2
      let parent := heap.getD parentpos newitem
      if entryLt tombs newitem parent then
        siftdown tombs fuel (heap.setD pos parent) newitem parentpos
      else heap.setD pos newitem
    else heap.setD pos newitem

/-- `heapq.heappush`: append, then sift down. -/
def heappush (tombs : List Nat) (heap : List PendingEntry)
    (item : PendingEntry) : List PendingEntry :=
  (siftdown tombs heap.length (heap.toArray.push item) item heap.length).toList

/-- The Python dict `self._mapping : operation_id → PendingAckOperation`,
holding entry identities. -/
abbrev AckMap := List (String × Nat)

def mapHas (m : AckMap) (k : String) : Bool := m.any (fun e => e.1 == k)

/-- `self._mapping[operation_id] = pending_op` (replace the unique binding
in place when present, else append). -/
def mapSet (m : AckMap) (k : String) (v : Nat) : AckMap :=
  match m with
  | [] => [(k, v)]
  | e :: rest => if e.1 == k then (k, v) :: rest else e :: mapSet rest k v

/-- `self._mapping.pop(operation_id, None)`. -/
def mapPop (m : AckMap) (k : String) : Option (Nat × AckMap) :=
  match (m.find? (fun e => e.1 == k)).map (·.2) with
  | some v => some (v, m.filter (fun e => e.1 != k))
  | Option.none => Option.none

structure AckState where
  queue : List PendingEntry
  mapping : AckMap
  tombs : List Nat
  nextEid : Nat
  fired : List String
  interval : Nat
deriving Repr

def initState (interval : Nat) : AckState :=
  { queue := [], mapping := [], tombs := [], nextEid := 0, fired := [], interval := interval }

/-- One external event on the sender: a `schedule_ack` call at wall-clock
`now`, an `operation_completed` call, or a timer wake running
`_run_once` at wall-clock `now`. -/
inductive AckEvent where
  | schedule (operation_id : String) (now : Nat)
  | complete (operation_id : String)
  | wake (now : Nat)
deriving Repr, DecidableEq

/-- The drain loop of `_run_once`: `while self._queue and
self._queue[0].scheduled_time <= now: operation = self._queue.pop(0); if
self._mapping.pop(operation.operation_id, None):
to_ack_operations.append(operation)`.  Returns the remaining queue, the
remaining mapping and the collected entries in order. -/
def drain (now : Nat) : List PendingEntry → AckMap →
    List PendingEntry × AckMap × List PendingEntry
  | [], mapping => ([], mapping, [])
  | e :: rest, mapping =>
    if e.scheduled_time ≤ now then
      match mapPop mapping e.operation_id with
      | some (_, mapping') =>
        let (q, m, c) := drain now rest mapping'
        (q, m, e :: c)
      | Option.none => drain now rest mapping
    else (e :: rest, mapping, [])

/-- `AckSender.schedule_ack`. -/
def scheduleAck (s : AckState) (operation_id : String) (now : Nat) : AckState :=
  let entry : PendingEntry :=
    { scheduled_time := now + s.interval, operation_id := operation_id, eid := s.nextEid }
  { s with
    queue := heappush s.tombs s.queue entry
    mapping := mapSet s.mapping operation_id s.nextEid
    nextEid := s.nextEid + 1 }

/-- `AckSender.operation_completed`. -/
def operationCompleted (s : AckState) (operation_id : String) : AckState :=
  match mapPop s.mapping operation_id with
  | some (eid, mapping') => { s with mapping := mapping', tombs := eid :: s.tombs }
  | Option.none => s

/-- `_run_once` at wall-clock `now`: drain the due entries, then invoke the
handler for every collected entry whose `completed` flag is still false
(handler errors are caught, so every such entry counts as one emitted ACK). -/
def runOnce (s : AckState) (now : Nat) : AckState :=
  let (q, m, collected) := drain now s.queue s.mapping
  let acked := (collected.filter (fun e => !(e.eid ∈ s.tombs))).map (·.operation_id)
  { s with queue := q, mapping := m, fired := s.fired ++ acked }

def step (s : AckState) : AckEvent → AckState
  | .schedule operation_id now => scheduleAck s operation_id now
  | .complete operation_id => operationCompleted s operation_id
  | .wake now => runOnce s now

def run (s : AckState) (events : List AckEvent) : AckState :=
  events.foldl step s

/-- Number of `schedule_ack(a)` calls in a trace. -/
def schedCount : List AckEvent → String → Nat
  | [], _ => 0
  | .schedule b _ :: rest, a => (if b == a then 1 else 0) + schedCount rest a
  | _ :: rest, a => schedCount rest a

/-- Number of ACKs emitted for operation `a`. -/
def fireCount (s : AckState) (a : String) : Nat :=
  (s.fired.filter (fun x => x == a)).length

end AckSender

/-! ## `events/sse_client_receiver.py`

`SSEClientReceiver` keeps a single `self._current_loop_id :
Optional[str]`.  `_start_receiver_thread` mints a fresh `uuid4` token,
stores it and spawns a worker carrying it; `stop()` sets the variable to
`None`; `restart()` is `stop()` followed by a fresh start.  A worker checks
`self._current_loop_id == loop_id` before dispatching each frame and breaks
out (then terminates, the outer `while` seeing the same mismatch) on the
first mismatch; the token being a fresh uuid, a terminated worker can
never see its token current again. -/

namespace SSEClientReceiver

structure ReceiverState where
  currentLoopId : Option String
  spawned : List String
deriving Repr, DecidableEq

def initReceiver : ReceiverState := { currentLoopId := Option.none, spawned := [] }

/-- `_start_receiver_thread` with the token `uuid4()` returned. -/
def startReceiverThread (s : ReceiverState) (freshTok : String) : ReceiverState :=
  { currentLoopId := some freshTok, spawned := s.spawned ++ [freshTok] }

/-- `stop()`. -/
def stopReceiver (s : ReceiverState) : ReceiverState :=
  { s with currentLoopId := Option.none }

/-- `restart()` = `stop()` + `_start_receiver_thread()`. -/
def restartReceiver (s : ReceiverState) (freshTok : String) : ReceiverState :=
  startReceiverThread (stopReceiver s) freshTok

/-- `_is_current_loop(loop_id)`. -/
def isCurrentLoop (s : ReceiverState) (tok : String) : Bool :=
  s.currentLoopId = some tok

/-- What a single worker generation observes, in order: frames arriving on
its stream, interleaved with writes to `_current_loop_id` made by
`start`/`stop`/`restart` on the owning thread. -/
inductive RecvEvent where
  | frame (n : Nat)
  | setCurrent (c : Option String)
deriving Repr, DecidableEq

structure WorkerState where
  current : Option String
  alive : Bool
  dispatched : List Nat
deriving Repr, DecidableEq

/-- The per-frame body of `_connect_and_consume_events` for the worker
holding token `tok`: `if not self._is_current_loop(loop_id): break` before
parsing/dispatching; after the break the loop (and, the token never coming
back, the worker) is finished. -/
def workerStep (tok : String) (s : WorkerState) : RecvEvent → WorkerState
  | .setCurrent c => { s with current := c }
  | .frame n =>
    if s.alive then
      if s.current = some tok then { s with dispatched := s.dispatched ++ [n] }
      else { s with alive := false }
    else s

def workerRun (tok : String) (s : WorkerState) (events : List RecvEvent) : WorkerState :=
  events.foldl (workerStep tok) s

/-- The worker state right after its generation became current. -/
def workerInit (tok : String) : WorkerState :=
  { current := some tok, alive := true, dispatched := [] }

end SSEClientReceiver

/-! ## Dictionary lemmas -/

theorem beq_false_of_ne {k k' : String} (h : k' ≠ k) : (k == k') = false := by
  simp only [beq_eq_false_iff_ne]
  exact fun hk => h hk.symm

theorem dictLookup_dictSet_self (d : Dict) (k : String) (v : PyVal) :
    dictLookup (dictSet d k v) k = some v := by
  induction d with
  | nil => simp [dictSet, dictLookup, List.find?]
  | cons e rest ih =>
    by_cases he : e.1 == k
    · simp [dictSet, he, dictLookup, List.find?]
    · simp only [dictSet, if_neg he]
      simpa [dictLookup, List.find?, he] using ih

theorem dictLookup_dictSet_other (d : Dict) (k k' : String) (v : PyVal)
    (h : k' ≠ k) : dictLookup (dictSet d k v) k' = dictLookup d k' := by
  induction d with
  | nil => simp [dictSet, dictLookup, List.find?, beq_false_of_ne h]
  | cons e rest ih =>
    by_cases he : e.1 == k
    · have hek : e.1 = k := by simpa using he
      have hek' : (e.1 == k') = false := by
        simp only [beq_eq_false_iff_ne, hek]
        exact fun hk => h hk.symm
      simp [dictSet, he, dictLookup, List.find?, beq_false_of_ne h, hek']
    · by_cases he' : e.1 == k'
      · simp only [dictSet, if_neg he, dictLookup, List.find?, he']
      · simp only [dictSet, if_neg he, dictLookup, List.find?, he']
        simpa [dictLookup, he'] using ih

theorem dictContains_dictSet_other (d : Dict) (k k' : String) (v : PyVal)
    (h : k' ≠ k) : dictContains (dictSet d k v) k' = dictContains d k' := by
  induction d with
  | nil => simp [dictSet, dictContains, beq_false_of_ne h]
  | cons e rest ih =>
    by_cases he : e.1 == k
    · have hek : e.1 = k := by simpa using he
      have hek' : (e.1 == k') = false := by
        simp only [beq_eq_false_iff_ne, hek]
        exact fun hk => h hk.symm
      simp [dictSet, he, dictContains, beq_false_of_ne h, hek']
    · simp only [dictSet, if_neg he, dictContains, List.any_cons]
      by_cases he' : e.1 == k'
      · simp [he']
      · simpa [dictContains, he'] using ih

theorem dictContains_filter_ne (d : Dict) (k : String) :
    dictContains (d.filter (fun e => e.1 != k)) k = false := by
  induction d with
  | nil => simp [dictContains]
  | cons e rest ih =>
    by_cases he : e.1 == k
    · simp only [List.filter, bne, he]
      exact ih
    · simp only [List.filter, bne, he, Bool.not_false, dictContains, List.any_cons]
      simp only [dictContains] at ih
      simp [he, ih]

theorem dictLookup_filter_ne (d : Dict) (k k' : String) (h : k' ≠ k) :
    dictLookup (d.filter (fun e => e.1 != k)) k' = dictLookup d k' := by
  induction d with
  | nil => simp
  | cons e rest ih =>
    by_cases he : e.1 == k
    · have hek : e.1 = k := by simpa using he
      have he' : (e.1 == k') = false := by
        simp only [beq_eq_false_iff_ne, hek]
        exact fun hk => h hk.symm
      simpa [List.filter, bne, he, dictLookup, List.find?, he'] using ih
    · by_cases he' : e.1 == k'
      · simp [List.filter, bne, he, dictLookup, List.find?, he']
      · simp only [List.filter_cons, bne, he, Bool.not_false, if_pos rfl]
        simp only [dictLookup, List.find?, he']
        simpa [dictLookup, he'] using ih

/-! ## Claim C10 -/

/-- C10: for every configuration key whose persisted value is the empty
string, `ConfigurationManager.get_str_value`, `get_int_value` and
`get_bool_value` return the caller-supplied default, and each accessor
returns exactly what it returns on a persistence that has no value for the
key at all — an empty stored value is indistinguishable from an absent
key at every typed accessor. -/
theorem c10_empty_config_value_is_default
    (persistence absent : String → Option String) (key : String)
    (ds : String) (di : Int) (db : Bool)
    (h : persistence key = some "") (habsent : absent key = Option.none) :
    ConfigurationManager.get_str_value persistence key ds = ds ∧
    ConfigurationManager.get_int_value persistence key di = .ok di ∧
    ConfigurationManager.get_bool_value persistence key db = db ∧
    ConfigurationManager.get_str_value persistence key ds =
      ConfigurationManager.get_str_value absent key ds ∧
    ConfigurationManager.get_int_value persistence key di =
      ConfigurationManager.get_int_value absent key di ∧
    ConfigurationManager.get_bool_value persistence key db =
      ConfigurationManager.get_bool_value absent key db := by
  refine ⟨?_, ?_, ?_, ?_, ?_, ?_⟩ <;>
    simp [ConfigurationManager.get_str_value, ConfigurationManager.get_int_value,
          ConfigurationManager.get_bool_value, h, habsent]

/-- Witness for C10 at a concrete persistence storing `""` under `"K"`. -/
theorem c10_empty_config_value_is_default_witness :
    ConfigurationManager.get_str_value (fun _ => some "") "K" "fallback" = "fallback" ∧
    ConfigurationManager.get_int_value (fun _ => some "") "K" 7 = .ok 7 ∧
    ConfigurationManager.get_bool_value (fun _ => some "") "K" true = true ∧
    ConfigurationManager.get_str_value (fun _ => some "") "K" "fallback" =
      ConfigurationManager.get_str_value (fun _ => Option.none) "K" "fallback" ∧
    ConfigurationManager.get_int_value (fun _ => some "") "K" 7 =
      ConfigurationManager.get_int_value (fun _ => Option.none) "K" 7 ∧
    ConfigurationManager.get_bool_value (fun _ => some "") "K" true =
      ConfigurationManager.get_bool_value (fun _ => Option.none) "K" true :=
  c10_empty_config_value_is_default (fun _ => some "") (fun _ => Option.none)
    "K" "fallback" 7 true rfl rfl

/-! ## Claim C1 -/

/-- C1 (code bug): `query_completed` does decode the operation attributes
and calls `results_publisher.schedule_push_query_results(operation_id,
query_id, operation_attributes)` — but the `ResultsPublisher` in
`results_publisher.py:28-31` declares `schedule_push_query_results(self,
operation_id, query_id)` with no attributes parameter, so the call raises
`TypeError` and no publish item carrying the attributes is ever enqueued.
Moreover, the item the two-argument method would build carries no
`operation_attrs`, so the publisher handler `_push_results`
(`sna_service.py:495-506`) would take its "Invalid result" branch and never
reach `result_for_query`.  The repository's own test
(`tests/test_app_service.py:120-133`) asserts exactly the claimed
behaviour, so the claim is right and the code is at fault. -/
theorem c1_query_completed_type_error :
    SnaService.query_completed
      { operation_id := "1234", trace_id := "5432",
        compress_response_file := false, response_size_limit_bytes := 100000 } "5678"
      = .error (.typeError
          "schedule_push_query_results() takes 3 positional arguments but 4 were given") ∧
    ∀ (operation_id query_id : String),
      SnaService.push_results_dispatch
          { operation_id := operation_id, query_id := some query_id } =
        SnaService.PushOutcome.invalidResult operation_id :=
  ⟨rfl, fun _ _ => rfl⟩

/-! ## Claim C7 -/

/-- C7 counterexample: on a 404 response from the orchestrator,
`raise_for_status` does raise inside the `try` block, but
`execute_operation` catches every exception and *returns*
`{"error": str(ex)}` — it does not raise, contrary to the claim
"raises on every 4xx/5xx response".  (The repository's own test
`test_reachability_test_failed` asserts this returning behaviour.) -/
theorem c7_counterexample_404_returns_error_dict :
    BackendClient.execute_operation_body
        { status := 404, jsonBody := some (.dict [("detail", .str "not found")]) }
      = .error (.httpError 404) ∧
    BackendClient.execute_operation
        { status := 404, jsonBody := some (.dict [("detail", .str "not found")]) }
      = .dict [("error", .str (exceptionMessage (.httpError 404)))] :=
  ⟨rfl, rfl⟩

/-- C7 (amended): `execute_operation` never raises: a 4xx/5xx response
yields `{"error": str(ex)}`; a 2xx (or other non-error) response whose
body parses to a truthy JSON value returns that parsed body; one whose
body parses to a falsy JSON value (e.g. `null` or `{}`) yields
`{"error": "empty response"}`; and one whose body does not parse (in
particular an empty body) yields `{"error": <decode-error text>}`. -/
theorem c7_execute_operation_returns_error_envelopes (resp : HttpResponse) :
    (400 ≤ resp.status → resp.status < 600 →
      BackendClient.execute_operation resp =
        .dict [("error", .str (exceptionMessage (.httpError resp.status)))]) ∧
    (¬ (400 ≤ resp.status ∧ resp.status < 600) →
      (resp.jsonBody = Option.none →
        BackendClient.execute_operation resp =
          .dict [("error", .str (exceptionMessage .jsonDecodeError))]) ∧
      ∀ v, resp.jsonBody = some v →
        BackendClient.execute_operation resp =
          (if truthy v then v else .dict [("error", .str "empty response")])) := by
  unfold BackendClient.execute_operation BackendClient.execute_operation_body
    BackendClient.raise_for_status BackendClient.response_json
  refine ⟨fun h1 h2 => ?_, fun h => ⟨fun hb => ?_, fun v hv => ?_⟩⟩
  · simp only [if_pos (And.intro h1 h2)]
    rfl
  · simp only [if_neg h, hb]
    rfl
  · simp only [if_neg h, hv]
    cases htv : truthy v <;>
      simp [Bind.bind, Except.bind, pure, Except.pure, htv]

/-- Witness for C7 exercising every branch at concrete responses. -/
theorem c7_execute_operation_returns_error_envelopes_witness :
    BackendClient.execute_operation { status := 500, jsonBody := some (.dict []) } =
      .dict [("error", .str (exceptionMessage (.httpError 500)))] ∧
    BackendClient.execute_operation
        { status := 200, jsonBody := some (.dict [("ok", .bool true)]) } =
      .dict [("ok", .bool true)] ∧
    BackendClient.execute_operation { status := 200, jsonBody := some .none } =
      .dict [("error", .str "empty response")] ∧
    BackendClient.execute_operation { status := 200, jsonBody := Option.none } =
      .dict [("error", .str (exceptionMessage .jsonDecodeError))] := by
  refine ⟨(c7_execute_operation_returns_error_envelopes _).1 (by decide) (by decide),
    ?_, ?_, ?_⟩
  · have := ((c7_execute_operation_returns_error_envelopes
      { status := 200, jsonBody := some (.dict [("ok", .bool true)]) }).2
      (by decide)).2 _ rfl
    simpa using this
  · have := ((c7_execute_operation_returns_error_envelopes
      { status := 200, jsonBody := some .none }).2 (by decide)).2 _ rfl
    simpa using this
  · exact ((c7_execute_operation_returns_error_envelopes
      { status := 200, jsonBody := Option.none }).2 (by decide)).1 rfl

/-! ## Claim C5 -/

theorem afterFirstColon_of_no_colon (cs : List Char) (h : cs.contains ':' = false) :
    QueriesService.afterFirstColon cs = Option.none := by
  induction cs with
  | nil => rfl
  | cons c rest ih =>
    simp only [List.contains, List.elem_cons] at h
    by_cases hc : c = ':'
    · subst hc
      simp at h
    · have hcr : (':' == c) = false := by
        simp only [beq_eq_false_iff_ne]
        exact fun hk => hc hk.symm
      rw [hcr] at h
      simp only [QueriesService.afterFirstColon, if_neg hc]
      exact ih h

theorem afterFirstColon_append (p s : List Char) (h : p.contains ':' = false) :
    QueriesService.afterFirstColon (p ++ ':' :: s) = some s := by
  induction p with
  | nil => simp [QueriesService.afterFirstColon]
  | cons c rest ih =>
    simp only [List.contains, List.elem_cons] at h
    by_cases hc : c = ':'
    · subst hc
      simp at h
    · have hcr : (':' == c) = false := by
        simp only [beq_eq_false_iff_ne]
        exact fun hk => hc hk.symm
      rw [hcr] at h
      simp only [List.cons_append, QueriesService.afterFirstColon, if_neg hc]
      exact ih h

/-- C5: `result_for_query_failed` returns exactly the three-key envelope
`{__mcd_error__, __mcd_error_attrs__ = {errno, sqlstate},
__mcd_error_type__}` with `ProgrammingError` exactly for the codes 3001,
3030, 2043, 604, 630 and `DatabaseError` for every other code; the message
is unchanged when it has no colon, and otherwise is the text after the
first colon with surrounding whitespace stripped (Python `.strip()`). -/
theorem c5_result_for_query_failed_spec
    (operation_id : String) (code : Int) (msg state : String) :
    QueriesService.result_for_query_failed operation_id code msg state =
      [(ATTRIBUTE_NAME_ERROR, .str (QueriesService.get_error_message msg)),
       (ATTRIBUTE_NAME_ERROR_ATTRS,
         .dict [("errno", .int code), ("sqlstate", .str state)]),
       (ATTRIBUTE_NAME_ERROR_TYPE,
         .str (if code = 3001 ∨ code = 3030 ∨ code = 2043 ∨ code = 604 ∨ code = 630
               then "ProgrammingError" else "DatabaseError"))] ∧
    (msg.toList.contains ':' = false → QueriesService.get_error_message msg = msg) ∧
    (∀ p s : String, msg = p ++ ":" ++ s → p.toList.contains ':' = false →
      QueriesService.get_error_message msg = QueriesService.pyStrip s) := by
  refine ⟨?_, fun h => ?_, fun p s hps hp => ?_⟩
  · unfold QueriesService.result_for_query_failed
    have hmem : code ∈ QueriesService.PROGRAMMING_ERRORS ↔
        (code = 3001 ∨ code = 3030 ∨ code = 2043 ∨ code = 604 ∨ code = 630) := by
      simp [QueriesService.PROGRAMMING_ERRORS,
        QueriesService.ERROR_INSUFFICIENT_PRIVILEGES,
        QueriesService.ERROR_SHARED_DATABASE_NO_LONGER_AVAILABLE,
        QueriesService.ERROR_OBJECT_DOES_NOT_EXIST,
        QueriesService.ERROR_QUERY_CANCELLED,
        QueriesService.ERROR_STATEMENT_TIMED_OUT]
    simp [hmem]
  · unfold QueriesService.get_error_message
    rw [afterFirstColon_of_no_colon msg.toList h]
  · unfold QueriesService.get_error_message
    have hdata : msg.toList = p.toList ++ ':' :: s.toList := by
      subst hps
      show (p ++ ":" ++ s).data = p.data ++ ':' :: s.data
      rw [String.data_append, String.data_append]
      simp
    rw [hdata, afterFirstColon_append p.toList s.toList hp]
    rfl

/-- Witness for C5 replaying the spec's timed-out-query scenario
(code 630, message with a prefix and a colon) plus a no-colon message. -/
theorem c5_result_for_query_failed_spec_witness :
    QueriesService.result_for_query_failed "op1" 630
        "Uncaught exception of type STATEMENT_ERROR on line 2: timeout" "57014" =
      [(ATTRIBUTE_NAME_ERROR,
        .str (QueriesService.get_error_message
          "Uncaught exception of type STATEMENT_ERROR on line 2: timeout")),
       (ATTRIBUTE_NAME_ERROR_ATTRS,
         .dict [("errno", .int 630), ("sqlstate", .str "57014")]),
       (ATTRIBUTE_NAME_ERROR_TYPE, .str "ProgrammingError")] ∧
    QueriesService.get_error_message
        "Uncaught exception of type STATEMENT_ERROR on line 2: timeout" = "timeout" ∧
    QueriesService.get_error_message "plain failure" = "plain failure" := by
  have h := c5_result_for_query_failed_spec "op1" 630
    "Uncaught exception of type STATEMENT_ERROR on line 2: timeout" "57014"
  have h2 := c5_result_for_query_failed_spec "op1" 2 "plain failure" "57014"
  refine ⟨?_, ?_, ?_⟩
  · have := h.1
    simpa using this
  · have := h.2.2 "Uncaught exception of type STATEMENT_ERROR on line 2" " timeout"
      (by decide) (by decide)
    rw [this]
    decide
  · exact h2.2.1 (by decide)

/-! ## Claim C2 -/

/-- C2 counterexample: an envelope that exceeds the size limit but carries
no `__mcd_result__` key (e.g. a large error envelope) makes
`process_result` raise `KeyError` at `del result[ATTRIBUTE_NAME_RESULT]`
instead of returning a spilled envelope, so the claim does not hold for
*every* oversized result envelope. -/
theorem c2_counterexample_keyerror_without_result_key :
    ResultsProcessor.process_result (fun k _ => k) 3600
        [(ATTRIBUTE_NAME_ERROR, .str "boom")]
        { operation_id := "op", trace_id := "t", compress_response_file := false,
          response_size_limit_bytes := 1 }
      = .error (.keyError ATTRIBUTE_NAME_RESULT) := rfl

/-- C2 (amended): for every result envelope `R` that does contain
`__mcd_result__` and operation attributes with positive limit `L`, if the
JSON-serialized size of `R` exceeds `L` then `process_result` returns an
envelope without `__mcd_result__`, with `__mcd_result_location__` the
pre-signed URL for key `responses/{trace_id}` and
`__mcd_result_compressed__ = compress_response_file`; an oversized
envelope without `__mcd_result__` instead raises `KeyError` (previous
counterexample), so nothing is pushed inline either way. -/
theorem c2_size_gating_spills_large_results
    (presign : String → Nat → String) (expiration : Nat)
    (R : Dict) (A : OperationAttributes)
    (hL : 0 < A.response_size_limit_bytes)
    (hS : A.response_size_limit_bytes < (ResultsProcessor.calculate_result_size R : Int))
    (hR : dictContains R ATTRIBUTE_NAME_RESULT = true) :
    ∃ outEnv : Dict,
      ResultsProcessor.process_result presign expiration R A = .ok outEnv ∧
      dictContains outEnv ATTRIBUTE_NAME_RESULT = false ∧
      dictLookup outEnv "__mcd_result_location__" =
        some (.str (presign ("responses/" ++ A.trace_id) expiration)) ∧
      dictLookup outEnv "__mcd_result_compressed__" =
        some (.bool A.compress_response_file) := by
  have hgate : ResultsProcessor.must_use_pre_signed_url A
      (ResultsProcessor.calculate_result_size R) = true := by
    simp [ResultsProcessor.must_use_pre_signed_url, hL, hS]
  unfold ResultsProcessor.process_result
  simp only [hgate, if_true]
  set url := presign ("responses/" ++ A.trace_id) expiration with hurl
  set r1 := dictSet R "__mcd_result_location__" (.str url) with hr1
  set r2 := dictSet r1 "__mcd_result_compressed__" (.bool A.compress_response_file)
    with hr2
  have hcont : dictContains r2 ATTRIBUTE_NAME_RESULT = true := by
    rw [hr2, dictContains_dictSet_other _ _ _ _ (by decide),
        hr1, dictContains_dictSet_other _ _ _ _ (by decide)]
    exact hR
  refine ⟨r2.filter (fun e => e.1 != ATTRIBUTE_NAME_RESULT), ?_, ?_, ?_, ?_⟩
  · unfold dictDel
    rw [hcont]
    simp
  · exact dictContains_filter_ne r2 ATTRIBUTE_NAME_RESULT
  · rw [dictLookup_filter_ne r2 _ _ (by decide), hr2,
        dictLookup_dictSet_other _ _ _ _ (by decide), hr1,
        dictLookup_dictSet_self]
  · rw [dictLookup_filter_ne r2 _ _ (by decide), hr2, dictLookup_dictSet_self]

/-- Witness for C2 at a concrete oversized envelope with limit 1. -/
theorem c2_size_gating_spills_large_results_witness :
    ∃ outEnv : Dict,
      ResultsProcessor.process_result (fun k _ => "url-for-" ++ k) 3600
          [(ATTRIBUTE_NAME_RESULT, .str "0123456789")]
          { operation_id := "op1", trace_id := "t1", compress_response_file := true,
            response_size_limit_bytes := 1 }
        = .ok outEnv ∧
      dictContains outEnv ATTRIBUTE_NAME_RESULT = false ∧
      dictLookup outEnv "__mcd_result_location__" =
        some (.str ("url-for-" ++ ("responses/" ++ "t1"))) ∧
      dictLookup outEnv "__mcd_result_compressed__" = some (.bool true) :=
  c2_size_gating_spills_large_results (fun k _ => "url-for-" ++ k) 3600
    [(ATTRIBUTE_NAME_RESULT, .str "0123456789")]
    { operation_id := "op1", trace_id := "t1", compress_response_file := true,
      response_size_limit_bytes := 1 }
    (by decide) (by decide) (by decide)

/-! ## Claim C3 -/

/-- C3 counterexample: `_push_backend_results` guards the injection with
the key `"trace_id"` (`_ATTR_NAME_TRACE_ID`), not `"__mcd_trace_id__"`:
an envelope that already carries `__mcd_trace_id__ = "T"` but no
`"trace_id"` key is overwritten with `attrs.trace_id = "T2"`, so the trace
id is not preserved to the final push. -/
theorem c3_counterexample_trace_id_overwritten :
    SnaService.push_backend_results (fun k _ => k) 3600
        [(ATTRIBUTE_NAME_TRACE_ID, .str "T")]
        (some { operation_id := "op1", trace_id := "T2",
                compress_response_file := true, response_size_limit_bytes := 5000000 })
      = .ok [(ATTRIBUTE_NAME_TRACE_ID, .str "T2")] ∧
    dictLookup [(ATTRIBUTE_NAME_TRACE_ID, PyVal.str "T2")] ATTRIBUTE_NAME_TRACE_ID =
      some (.str "T2") ∧
    ("T2" : String) ≠ "T" :=
  ⟨rfl, rfl, by decide⟩

/-- C3 (amended): in the publish step with attributes present,
`attrs.trace_id` is written under `__mcd_trace_id__` exactly when the
envelope does not contain the key `"trace_id"` — overwriting any
`__mcd_trace_id__` already there; when the envelope does contain a
`"trace_id"` key it passes through unchanged (and only then is a
pre-existing `__mcd_trace_id__` guaranteed to survive). -/
theorem c3_trace_id_injection
    (presign : String → Nat → String) (expiration : Nat)
    (result : Dict) (attrs : OperationAttributes) (injected : Dict)
    (hinj : injected =
      (if dictContains result SNA_ATTR_NAME_TRACE_ID then result
       else dictSet result ATTRIBUTE_NAME_TRACE_ID (.str attrs.trace_id)))
    (hsmall : ResultsProcessor.must_use_pre_signed_url attrs
        (ResultsProcessor.calculate_result_size injected) = false) :
    SnaService.push_backend_results presign expiration result (some attrs) =
      .ok injected ∧
    dictLookup injected ATTRIBUTE_NAME_TRACE_ID =
      (if dictContains result SNA_ATTR_NAME_TRACE_ID then
        dictLookup result ATTRIBUTE_NAME_TRACE_ID
       else some (.str attrs.trace_id)) := by
  cases hc : dictContains result SNA_ATTR_NAME_TRACE_ID with
  | true =>
    rw [hc] at hinj
    simp only [if_pos rfl] at hinj
    subst hinj
    constructor
    · unfold SnaService.push_backend_results
      rw [hc]
      simp only [Bool.not_true, Bool.false_eq_true, if_false]
      unfold ResultsProcessor.process_result
      simp only [hsmall, Bool.false_eq_true, if_false]
    · simp [hc]
  | false =>
    rw [hc] at hinj
    simp only [Bool.false_eq_true, if_false] at hinj
    subst hinj
    constructor
    · unfold SnaService.push_backend_results
      rw [hc]
      simp only [Bool.not_false, if_true]
      unfold ResultsProcessor.process_result
      simp only [hsmall, Bool.false_eq_true, if_false]
    · simp [hc, dictLookup_dictSet_self]

/-- Witness for C3: injection happens on an envelope without a
`"trace_id"` key and the envelope with one passes through unchanged. -/
theorem c3_trace_id_injection_witness :
    (SnaService.push_backend_results (fun k _ => k) 3600
        [(ATTRIBUTE_NAME_RESULT, .str "ok")]
        (some { operation_id := "op1", trace_id := "t9",
                compress_response_file := false,
                response_size_limit_bytes := 5000000 }) =
      .ok (dictSet [(ATTRIBUTE_NAME_RESULT, .str "ok")]
            ATTRIBUTE_NAME_TRACE_ID (.str "t9"))) ∧
    dictLookup (dictSet [(ATTRIBUTE_NAME_RESULT, PyVal.str "ok")]
        ATTRIBUTE_NAME_TRACE_ID (.str "t9")) ATTRIBUTE_NAME_TRACE_ID =
      some (.str "t9") := by
  have h := c3_trace_id_injection (fun k _ => k) 3600
    [(ATTRIBUTE_NAME_RESULT, .str "ok")]
    { operation_id := "op1", trace_id := "t9", compress_response_file := false,
      response_size_limit_bytes := 5000000 }
    (dictSet [(ATTRIBUTE_NAME_RESULT, .str "ok")] ATTRIBUTE_NAME_TRACE_ID (.str "t9"))
    rfl (by decide)
  refine ⟨h.1, ?_⟩
  have h2 := h.2
  simpa using h2


/-! ## Claim C8 -/

theorem method_for_type_none_of_invalid (client : StorageClient) (t : String)
    (h : t ∉ ["storage_read", "storage_read_json", "storage_write", "storage_delete",
              "storage_generate_presigned_url", "storage_is_bucket_private"]) :
    StorageService.method_for_type client t = Option.none := by
  simp only [List.mem_cons, List.mem_singleton, not_or, List.not_mem_nil] at h
  obtain ⟨h1, h2, h3, h4, h5, h6, -⟩ := h
  unfold StorageService.method_for_type
  rw [if_neg h1, if_neg h2, if_neg h3, if_neg h4, if_neg h5, if_neg h6]

/-- C8 counterexample: `storage_is_bucket_private` is one of the six
supported operation types, takes no `key` argument at all, and succeeds
without one — the result is a success envelope, not an error envelope, so
not every storage method requires `key`.  (`_write` with no `obj_to_write`
also succeeds without a key.) -/
theorem c8_counterexample_is_bucket_private_needs_no_key :
    StorageService.execute_operation
        { read := fun _ _ _ => .ok .none, read_json := fun _ => .ok .none,
          write := fun _ _ => .ok (), delete := fun _ => .ok (),
          generate_presigned_url := fun _ _ => .ok .none,
          is_bucket_private := .ok (.bool true) }
        [("operation", .dict [("type", .str "storage_is_bucket_private")])]
      = [(ATTRIBUTE_NAME_RESULT, .bool true)] ∧
    dictContains [(ATTRIBUTE_NAME_RESULT, PyVal.bool true)] ATTRIBUTE_NAME_ERROR = false :=
  ⟨rfl, rfl⟩

/-- C8 (amended): an operation type outside the six supported storage
types yields the error envelope `"Invalid operation type: <t>"`; a missing
`key` yields the `ValueError("Key is required")` error envelope for
`storage_read`, `storage_read_json`, `storage_delete`,
`storage_generate_presigned_url`, and for `storage_write` when
`obj_to_write` is a string (or bytes); but `storage_write` with no
`obj_to_write` succeeds without a key, and `storage_is_bucket_private`
never consults `key` at all. -/
theorem c8_storage_dispatch (client : StorageClient) (event operation : Dict)
    (hop : dictLookup event "operation" = some (.dict operation)) :
    (∀ t : String,
      dictLookup operation "type" = some (.str t) →
      t ∉ ["storage_read", "storage_read_json", "storage_write", "storage_delete",
           "storage_generate_presigned_url", "storage_is_bucket_private"] →
      StorageService.execute_operation client event =
        [(ATTRIBUTE_NAME_ERROR, .str ("Invalid operation type: " ++ t))]) ∧
    (∀ t, t ∈ ["storage_read", "storage_read_json", "storage_delete",
           "storage_generate_presigned_url"] →
      dictLookup operation "type" = some (.str t) →
      dictLookup operation "key" = Option.none →
      StorageService.execute_operation client event =
        [(ATTRIBUTE_NAME_ERROR_TYPE, .str "ValueError"),
         (ATTRIBUTE_NAME_ERROR, .str "Key is required")]) ∧
    (∀ s, dictLookup operation "type" = some (.str "storage_write") →
      dictLookup operation "obj_to_write" = some (.str s) →
      dictLookup operation "key" = Option.none →
      StorageService.execute_operation client event =
        [(ATTRIBUTE_NAME_ERROR_TYPE, .str "ValueError"),
         (ATTRIBUTE_NAME_ERROR, .str "Key is required")]) ∧
    (dictLookup operation "type" = some (.str "storage_write") →
      dictLookup operation "obj_to_write" = Option.none →
      StorageService.execute_operation client event =
        [(ATTRIBUTE_NAME_RESULT, .dict [])]) ∧
    (∀ v, dictLookup operation "type" = some (.str "storage_is_bucket_private") →
      client.is_bucket_private = .ok v →
      StorageService.execute_operation client event =
        [(ATTRIBUTE_NAME_RESULT, v)]) := by
  refine ⟨fun t ht hnot => ?_, fun t hmem ht hkey => ?_, fun s ht hobj hkey => ?_,
          fun ht hobj => ?_, fun v ht hpriv => ?_⟩
  · unfold StorageService.execute_operation
    simp only [hop, ht, method_for_type_none_of_invalid client t hnot,
      StorageService.operationTypeText]
  · simp only [List.mem_cons, List.not_mem_nil, or_false] at hmem
    unfold StorageService.execute_operation
    rcases hmem with rfl | rfl | rfl | rfl <;>
      simp [hop, ht, StorageService.method_for_type, StorageService.read_method,
        StorageService.read_json_method, StorageService.delete_method,
        StorageService.pre_signed_url_method, StorageService.get_key, hkey,
        Bind.bind, Except.bind, StorageService.get_error_type, storageExcMessage]
  · unfold StorageService.execute_operation
    simp [hop, ht, StorageService.method_for_type, StorageService.write_method,
      StorageService.get_key, hobj, hkey, Bind.bind, Except.bind,
      StorageService.get_error_type, storageExcMessage]
  · unfold StorageService.execute_operation
    simp [hop, ht, StorageService.method_for_type, StorageService.write_method,
      hobj, Bind.bind, Except.bind, pure, Except.pure]
  · unfold StorageService.execute_operation
    simp [hop, ht, StorageService.method_for_type,
      StorageService.is_bucket_private_method, hpriv]

/-- Witness for C8 exercising the invalid-type and missing-key branches at
concrete events. -/
theorem c8_storage_dispatch_witness :
    StorageService.execute_operation
        { read := fun _ _ _ => .ok .none, read_json := fun _ => .ok .none,
          write := fun _ _ => .ok (), delete := fun _ => .ok (),
          generate_presigned_url := fun _ _ => .ok .none,
          is_bucket_private := .ok (.bool true) }
        [("operation", .dict [("type", .str "storage_list")])]
      = [(ATTRIBUTE_NAME_ERROR, .str ("Invalid operation type: " ++ "storage_list"))] ∧
    StorageService.execute_operation
        { read := fun _ _ _ => .ok .none, read_json := fun _ => .ok .none,
          write := fun _ _ => .ok (), delete := fun _ => .ok (),
          generate_presigned_url := fun _ _ => .ok .none,
          is_bucket_private := .ok (.bool true) }
        [("operation", .dict [("type", .str "storage_read")])]
      = [(ATTRIBUTE_NAME_ERROR_TYPE, .str "ValueError"),
         (ATTRIBUTE_NAME_ERROR, .str "Key is required")] := by
  constructor
  · have h := c8_storage_dispatch
      { read := fun _ _ _ => .ok .none, read_json := fun _ => .ok .none,
        write := fun _ _ => .ok (), delete := fun _ => .ok (),
        generate_presigned_url := fun _ _ => .ok .none,
        is_bucket_private := .ok (.bool true) }
      [("operation", .dict [("type", .str "storage_list")])]
      [("type", .str "storage_list")] rfl
    exact h.1 "storage_list" rfl (by decide)
  · have h := c8_storage_dispatch
      { read := fun _ _ _ => .ok .none, read_json := fun _ => .ok .none,
        write := fun _ _ => .ok (), delete := fun _ => .ok (),
        generate_presigned_url := fun _ _ => .ok .none,
        is_bucket_private := .ok (.bool true) }
      [("operation", .dict [("type", .str "storage_read")])]
      [("type", .str "storage_read")] rfl
    exact h.2.1 "storage_read" (by decide) rfl rfl


/-! ## Claim C9 -/

theorem b64CharIndex_b64Char (k : Nat) (h : k < 64) :
    b64CharIndex (b64Char k) = k := by
  have : ∀ j : Fin 64, b64CharIndex (b64Char j.val) = j.val := by decide
  exact this ⟨k, h⟩

theorem b64Char_ne_pad (k : Nat) (h : k < 64) : b64Char k ≠ '=' := by
  have : ∀ j : Fin 64, b64Char j.val ≠ '=' := by decide
  exact this ⟨k, h⟩

/-- `base64.b64decode ∘ base64.b64encode` is the identity on byte lists. -/
theorem b64_roundtrip : ∀ bs : List Nat, (∀ b ∈ bs, b < 256) →
    b64decode (b64encode bs) = bs
  | [], _ => rfl
  | [b0], h => by
    have hb0 : b0 < 256 := h b0 (by simp)
    simp only [b64encode, b64decode]
    have hdata : (String.mk [b64Char (b0 * 16 / 64), b64Char (b0 * 16 % 64)] ++
        "==").toList = [b64Char (b0 * 16 / 64), b64Char (b0 * 16 % 64), '=', '='] := by
      show (String.mk _ ++ "==").data = _
      rw [String.data_append]
      rfl
    rw [hdata]
    simp only [b64decodeList]
    rw [b64CharIndex_b64Char _ (show b0 * 16 / 64 < 64 by omega),
        b64CharIndex_b64Char _ (show b0 * 16 % 64 < 64 by omega)]
    have harith : (b0 * 16 / 64 * 64 + b0 * 16 % 64) / 16 = b0 := by omega
    rw [harith]
    simp
  | [b0, b1], h => by
    have hb0 : b0 < 256 := h b0 (by simp)
    have hb1 : b1 < 256 := h b1 (by simp)
    simp only [b64encode, b64decode]
    have hdata : (String.mk [b64Char ((b0 * 256 + b1) * 4 / 4096),
        b64Char ((b0 * 256 + b1) * 4 / 64 % 64), b64Char ((b0 * 256 + b1) * 4 % 64)] ++
        "=").toList = [b64Char ((b0 * 256 + b1) * 4 / 4096),
          b64Char ((b0 * 256 + b1) * 4 / 64 % 64), b64Char ((b0 * 256 + b1) * 4 % 64),
          '='] := by
      show (String.mk _ ++ "=").data = _
      rw [String.data_append]
      rfl
    rw [hdata]
    simp only [b64decodeList]
    rw [if_neg (fun hcontra =>
      b64Char_ne_pad ((b0 * 256 + b1) * 4 % 64) (by omega) hcontra.1)]
    rw [b64CharIndex_b64Char _ (show (b0 * 256 + b1) * 4 / 4096 < 64 by omega),
        b64CharIndex_b64Char _ (show (b0 * 256 + b1) * 4 / 64 % 64 < 64 by omega),
        b64CharIndex_b64Char _ (show (b0 * 256 + b1) * 4 % 64 < 64 by omega)]
    have h1 : ((b0 * 256 + b1) * 4 / 4096 * 4096 + (b0 * 256 + b1) * 4 / 64 % 64 * 64 +
        (b0 * 256 + b1) * 4 % 64) / 4 / 256 = b0 := by omega
    have h2 : ((b0 * 256 + b1) * 4 / 4096 * 4096 + (b0 * 256 + b1) * 4 / 64 % 64 * 64 +
        (b0 * 256 + b1) * 4 % 64) / 4 % 256 = b1 := by omega
    rw [h1, h2]
    simp
  | b0 :: b1 :: b2 :: rest, h => by
    have hb0 : b0 < 256 := h b0 (by simp)
    have hb1 : b1 < 256 := h b1 (by simp)
    have hb2 : b2 < 256 := h b2 (by simp)
    have ih := b64_roundtrip rest (fun b hb => h b (by simp [hb]))
    simp only [b64encode, b64decode] at ih ⊢
    set n := b0 * 65536 + b1 * 256 + b2 with hn
    have hdata : (String.mk [b64Char (n / 262144), b64Char (n / 4096 % 64),
        b64Char (n / 64 % 64), b64Char (n % 64)] ++ b64encode rest).toList =
        b64Char (n / 262144) :: b64Char (n / 4096 % 64) :: b64Char (n / 64 % 64) ::
        b64Char (n % 64) :: (b64encode rest).toList := by
      show (String.mk _ ++ b64encode rest).data = _
      rw [String.data_append]
      rfl
    rw [hdata]
    simp only [b64decodeList]
    rw [if_neg (fun hcontra => b64Char_ne_pad (n / 64 % 64) (by omega) hcontra.1)]
    rw [if_neg (fun hcontra => b64Char_ne_pad (n % 64) (by omega) hcontra.1)]
    rw [b64CharIndex_b64Char _ (show n / 262144 < 64 by omega),
        b64CharIndex_b64Char _ (show n / 4096 % 64 < 64 by omega),
        b64CharIndex_b64Char _ (show n / 64 % 64 < 64 by omega),
        b64CharIndex_b64Char _ (show n % 64 < 64 by omega)]
    rw [ih]
    have h0 : (n / 262144 * 262144 + n / 4096 % 64 * 4096 + n / 64 % 64 * 64 + n % 64)
        / 65536 = b0 := by omega
    have h1 : (n / 262144 * 262144 + n / 4096 % 64 * 4096 + n / 64 % 64 * 64 + n % 64)
        / 256 % 256 = b1 := by omega
    have h2 : (n / 262144 * 262144 + n / 4096 % 64 * 4096 + n / 64 % 64 * 64 + n % 64)
        % 256 = b2 := by omega
    rw [h0, h1, h2]

/-- The decode step applied to the encoder's output, as composed by the
claim: `AgentSerializer.serialize` followed by `decode_dict_value` (via
`decode_dictionary`) on the tagged dictionary it produced. -/
def decodeSerialized (v : PyVal) : PyVal :=
  match AgentSerializer.serialize v with
  | .dict d => decode_dict_value d
  | w => w

/-- C9 counterexample: decoding the encoded form of `Decimal("1.5")`
yields the tagged dictionary itself, not the original value —
`decode_dict_value` only decodes the `bytes` tag, so decimal (and
datetime/date) values do not round-trip. -/
theorem c9_counterexample_decimal_does_not_roundtrip :
    decodeSerialized (.decimal "1.5") =
      .dict [(ATTRIBUTE_NAME_TYPE, .str ATTRIBUTE_VALUE_TYPE_DECIMAL),
             (ATTRIBUTE_NAME_DATA, .str "1.5")] ∧
    PyVal.dict [(ATTRIBUTE_NAME_TYPE, .str ATTRIBUTE_VALUE_TYPE_DECIMAL),
                (ATTRIBUTE_NAME_DATA, .str "1.5")] ≠ PyVal.decimal "1.5" := by
  refine ⟨rfl, ?_⟩
  intro hcontra
  cases hcontra

/-- C9 (amended): the encoder round-trips `bytes` values —
`decode_dict_value (serialize (bytes bs)) = bytes bs` — but for
`Decimal`, `datetime` and `date` values the decoder returns the tagged
dictionary unchanged (only the `bytes` tag is decoded), so those types do
not round-trip through `decode_dict_value` / `decode_dictionary`. -/
theorem c9_serializer_roundtrips_bytes_only (bs : List Nat) (h : ∀ b ∈ bs, b < 256)
    (dec dt dd : String) :
    decodeSerialized (.bytes bs) = .bytes bs ∧
    decodeSerialized (.decimal dec) =
      .dict [(ATTRIBUTE_NAME_TYPE, .str ATTRIBUTE_VALUE_TYPE_DECIMAL),
             (ATTRIBUTE_NAME_DATA, .str dec)] ∧
    decodeSerialized (.datetime dt) =
      .dict [(ATTRIBUTE_NAME_TYPE, .str ATTRIBUTE_VALUE_TYPE_DATETIME),
             (ATTRIBUTE_NAME_DATA, .str dt)] ∧
    decodeSerialized (.date dd) =
      .dict [(ATTRIBUTE_NAME_TYPE, .str ATTRIBUTE_VALUE_TYPE_DATE),
             (ATTRIBUTE_NAME_DATA, .str dd)] := by
  refine ⟨?_, rfl, rfl, rfl⟩
  show PyVal.bytes (b64decode (b64encode bs)) = PyVal.bytes bs
  rw [b64_roundtrip bs h]

/-- Witness for C9 at a concrete byte string. -/
theorem c9_serializer_roundtrips_bytes_only_witness :
    decodeSerialized (.bytes [0, 255, 7, 1, 2]) = .bytes [0, 255, 7, 1, 2] ∧
    decodeSerialized (.decimal "1.25") =
      .dict [(ATTRIBUTE_NAME_TYPE, .str ATTRIBUTE_VALUE_TYPE_DECIMAL),
             (ATTRIBUTE_NAME_DATA, .str "1.25")] :=
  ⟨(c9_serializer_roundtrips_bytes_only [0, 255, 7, 1, 2] (by decide) "x" "y" "z").1,
   (c9_serializer_roundtrips_bytes_only [] (by decide) "1.25" "y" "z").2.1⟩


/-! ## Claim C6 -/

theorem workerRun_dead (tok : String) (s : SSEClientReceiver.WorkerState)
    (events : List SSEClientReceiver.RecvEvent) (hdead : s.alive = false) :
    (SSEClientReceiver.workerRun tok s events).dispatched = s.dispatched ∧
    (SSEClientReceiver.workerRun tok s events).alive = false := by
  induction events generalizing s with
  | nil => exact ⟨rfl, hdead⟩
  | cons e rest ih =>
    cases e with
    | setCurrent c =>
      exact ih { s with current := c } hdead
    | frame n =>
      have hstep : SSEClientReceiver.workerStep tok s (.frame n) = s := by
        unfold SSEClientReceiver.workerStep
        rw [hdead]
        simp
      show (SSEClientReceiver.workerRun tok
          (SSEClientReceiver.workerStep tok s (.frame n)) rest).dispatched =
        s.dispatched ∧
        (SSEClientReceiver.workerRun tok
          (SSEClientReceiver.workerStep tok s (.frame n)) rest).alive = false
      rw [hstep]
      exact ih s hdead

theorem workerRun_stale (tok : String) (s : SSEClientReceiver.WorkerState)
    (events : List SSEClientReceiver.RecvEvent)
    (hcur : s.current ≠ some tok)
    (hset : ∀ c, SSEClientReceiver.RecvEvent.setCurrent c ∈ events → c ≠ some tok) :
    (SSEClientReceiver.workerRun tok s events).dispatched = s.dispatched ∧
    ((∃ n, SSEClientReceiver.RecvEvent.frame n ∈ events) →
      (SSEClientReceiver.workerRun tok s events).alive = false) := by
  induction events generalizing s with
  | nil =>
    refine ⟨rfl, ?_⟩
    rintro ⟨n, hn⟩
    simp at hn
  | cons e rest ih =>
    cases e with
    | setCurrent c =>
      have hc : c ≠ some tok := hset c (by simp)
      have hrest : ∀ c2, SSEClientReceiver.RecvEvent.setCurrent c2 ∈ rest →
          c2 ≠ some tok := fun c2 hc2 => hset c2 (by simp [hc2])
      have h := ih { s with current := c } hc hrest
      refine ⟨h.1, fun hex => ?_⟩
      obtain ⟨n, hn⟩ := hex
      rcases List.mem_cons.mp hn with heq | hmem
      · cases heq
      · exact h.2 ⟨n, hmem⟩
    | frame n =>
      have hstep : SSEClientReceiver.workerStep tok s (.frame n) =
          (if s.alive then { s with alive := false } else s) := by
        unfold SSEClientReceiver.workerStep
        cases ha : s.alive with
        | true => simp [ha, if_neg hcur]
        | false => simp [ha]
      cases ha : s.alive with
      | true =>
        have hdead := workerRun_dead tok { s with alive := false } rest rfl
        show (SSEClientReceiver.workerRun tok
            (SSEClientReceiver.workerStep tok s (.frame n)) rest).dispatched =
          s.dispatched ∧
          ((∃ m, SSEClientReceiver.RecvEvent.frame m ∈
              SSEClientReceiver.RecvEvent.frame n :: rest) →
            (SSEClientReceiver.workerRun tok
              (SSEClientReceiver.workerStep tok s (.frame n)) rest).alive = false)
        rw [hstep, ha, if_pos rfl]
        exact ⟨hdead.1, fun _ => hdead.2⟩
      | false =>
        have hdead := workerRun_dead tok s rest ha
        show (SSEClientReceiver.workerRun tok
            (SSEClientReceiver.workerStep tok s (.frame n)) rest).dispatched =
          s.dispatched ∧
          ((∃ m, SSEClientReceiver.RecvEvent.frame m ∈
              SSEClientReceiver.RecvEvent.frame n :: rest) →
            (SSEClientReceiver.workerRun tok
              (SSEClientReceiver.workerStep tok s (.frame n)) rest).alive = false)
        rw [hstep, ha, if_neg (by simp)]
        exact ⟨hdead.1, fun _ => hdead.2⟩

/-- C6: `_current_loop_id` is a single optional token, so at most one
generation is current at any time; `restart()` installs a fresh token, so
the old generation is no longer current; and a worker whose token is no
longer current dispatches no event arriving after the token change and
terminates at its next frame boundary (subsequent generations carry fresh
uuids, hence the hypothesis that no later write restores the old token). -/
theorem c6_single_generation_and_stale_quiescence
    (s : SSEClientReceiver.ReceiverState) (t1 t2 tok freshTok : String)
    (w : SSEClientReceiver.WorkerState)
    (pre post : List SSEClientReceiver.RecvEvent) (c : Option String)
    (hc : c ≠ some tok)
    (hpost : ∀ c2, SSEClientReceiver.RecvEvent.setCurrent c2 ∈ post → c2 ≠ some tok)
    (hfresh : freshTok ≠ tok) :
    (SSEClientReceiver.isCurrentLoop s t1 = true →
      SSEClientReceiver.isCurrentLoop s t2 = true → t1 = t2) ∧
    SSEClientReceiver.isCurrentLoop
      (SSEClientReceiver.restartReceiver s freshTok) tok = false ∧
    (SSEClientReceiver.workerRun tok w
        (pre ++ SSEClientReceiver.RecvEvent.setCurrent c :: post)).dispatched =
      (SSEClientReceiver.workerRun tok w pre).dispatched ∧
    ((∃ n, SSEClientReceiver.RecvEvent.frame n ∈ post) →
      (SSEClientReceiver.workerRun tok w
        (pre ++ SSEClientReceiver.RecvEvent.setCurrent c :: post)).alive = false) := by
  refine ⟨fun h1 h2 => ?_, ?_, ?_, ?_⟩
  · unfold SSEClientReceiver.isCurrentLoop at h1 h2
    have e1 : s.currentLoopId = some t1 := by simpa using h1
    have e2 : s.currentLoopId = some t2 := by simpa using h2
    rw [e1] at e2
    exact Option.some_inj.mp e2
  · unfold SSEClientReceiver.isCurrentLoop SSEClientReceiver.restartReceiver
      SSEClientReceiver.startReceiverThread SSEClientReceiver.stopReceiver
    simpa using fun hcontra => hfresh hcontra
  · unfold SSEClientReceiver.workerRun
    rw [List.foldl_append]
    have hmid : (List.foldl (SSEClientReceiver.workerStep tok)
        (List.foldl (SSEClientReceiver.workerStep tok) w pre)
        (SSEClientReceiver.RecvEvent.setCurrent c :: post)) =
        List.foldl (SSEClientReceiver.workerStep tok)
          { List.foldl (SSEClientReceiver.workerStep tok) w pre with current := c }
          post := rfl
    rw [hmid]
    exact (workerRun_stale tok _ post hc hpost).1
  · intro hex
    unfold SSEClientReceiver.workerRun
    rw [List.foldl_append]
    exact (workerRun_stale tok _ post hc hpost).2 hex

/-- Witness for C6: a concrete restart trace where the old generation
stops dispatching at its next frame. -/
theorem c6_single_generation_and_stale_quiescence_witness :
    ((SSEClientReceiver.isCurrentLoop
        (SSEClientReceiver.startReceiverThread SSEClientReceiver.initReceiver "g1")
        "g1" = true →
      SSEClientReceiver.isCurrentLoop
        (SSEClientReceiver.startReceiverThread SSEClientReceiver.initReceiver "g1")
        "g1" = true → ("g1" : String) = "g1") ∧
    SSEClientReceiver.isCurrentLoop
      (SSEClientReceiver.restartReceiver
        (SSEClientReceiver.startReceiverThread SSEClientReceiver.initReceiver "g1")
        "g2") "g1" = false ∧
    (SSEClientReceiver.workerRun "g1" (SSEClientReceiver.workerInit "g1")
        ([.frame 1] ++ SSEClientReceiver.RecvEvent.setCurrent (some "g2") ::
          [.frame 2, .setCurrent (some "g3"), .frame 3])).dispatched =
      (SSEClientReceiver.workerRun "g1" (SSEClientReceiver.workerInit "g1")
        [.frame 1]).dispatched ∧
    ((∃ n, SSEClientReceiver.RecvEvent.frame n ∈
        ([.frame 2, .setCurrent (some "g3"), .frame 3] :
          List SSEClientReceiver.RecvEvent)) →
      (SSEClientReceiver.workerRun "g1" (SSEClientReceiver.workerInit "g1")
        ([.frame 1] ++ SSEClientReceiver.RecvEvent.setCurrent (some "g2") ::
          [.frame 2, .setCurrent (some "g3"), .frame 3])).alive = false)) :=
  c6_single_generation_and_stale_quiescence
    (SSEClientReceiver.startReceiverThread SSEClientReceiver.initReceiver "g1")
    "g1" "g1" "g1" "g2" (SSEClientReceiver.workerInit "g1")
    [.frame 1] [.frame 2, .setCurrent (some "g3"), .frame 3] (some "g2")
    (by decide)
    (by
      intro c2 hc2
      simp only [List.mem_cons, List.not_mem_nil, or_false] at hc2
      rcases hc2 with h | h | h
      · cases h
      · injection h with h2
        subst h2
        decide
      · cases h)
    (by decide)



/-! ## Claim C4 -/

namespace AckSender

/-- 0/1 measure: is operation `a` live in the pending map? -/
def has01 (m : AckMap) (a : String) : Nat := if mapHas m a then 1 else 0

theorem has01_le_one (m : AckMap) (a : String) : has01 m a ≤ 1 := by
  unfold has01
  split <;> omega

theorem mapHas_mapSet_other (m : AckMap) (k a : String) (v : Nat) (h : a ≠ k) :
    mapHas (mapSet m k v) a = mapHas m a := by
  induction m with
  | nil =>
    simp only [mapSet, mapHas, List.any_cons, List.any_nil, Bool.or_false]
    exact beq_false_of_ne h
  | cons e rest ih =>
    simp only [mapHas] at ih
    by_cases he : e.1 = k
    · simp [mapSet, mapHas, he]
    · simp [mapSet, mapHas, he, ih]

theorem mapHas_filter_self (m : AckMap) (k : String) :
    mapHas (m.filter (fun e => e.1 != k)) k = false := by
  induction m with
  | nil => simp [mapHas]
  | cons e rest ih =>
    by_cases he : e.1 = k
    · rw [List.filter_cons_of_neg (by simp [bne, he])]
      exact ih
    · rw [List.filter_cons_of_pos (by simp [bne, he])]
      unfold mapHas
      rw [List.any_cons]
      have hek : (e.1 == k) = false := by
        simp only [beq_eq_false_iff_ne]
        exact he
      rw [hek, Bool.false_or]
      exact ih

theorem mapHas_filter_other (m : AckMap) (k a : String) (h : a ≠ k) :
    mapHas (m.filter (fun e => e.1 != k)) a = mapHas m a := by
  induction m with
  | nil => simp [mapHas]
  | cons e rest ih =>
    by_cases he : e.1 = k
    · rw [List.filter_cons_of_neg (by simp [bne, he])]
      have hea : (e.1 == a) = false := by
        simp only [beq_eq_false_iff_ne, he]
        exact fun hk => h hk.symm
      unfold mapHas
      rw [List.any_cons, hea, Bool.false_or]
      exact ih
    · rw [List.filter_cons_of_pos (by simp [bne, he])]
      unfold mapHas
      rw [List.any_cons, List.any_cons]
      unfold mapHas at ih
      rw [ih]

theorem mapPop_none_of_not_has (m : AckMap) (k : String)
    (h : mapHas m k = false) : mapPop m k = Option.none := by
  unfold mapPop
  have hf : m.find? (fun e => e.1 == k) = Option.none := by
    rw [List.find?_eq_none]
    intro e he
    unfold mapHas at h
    have := List.any_eq_false.mp h e he
    simpa using this
  rw [hf]
  rfl

theorem not_has_of_mapPop_none (m : AckMap) (k : String)
    (h : mapPop m k = Option.none) : mapHas m k = false := by
  unfold mapPop at h
  cases hf : m.find? (fun e => e.1 == k) with
  | some e =>
    rw [hf] at h
    simp at h
  | none =>
    unfold mapHas
    rw [List.any_eq_false]
    intro e he
    have := List.find?_eq_none.mp hf e he
    simpa using this

theorem mapPop_eq_of_some (m m1 : AckMap) (k : String) (v : Nat)
    (h : mapPop m k = some (v, m1)) :
    m1 = m.filter (fun e => e.1 != k) ∧ mapHas m k = true := by
  unfold mapPop at h
  cases hf : m.find? (fun e => e.1 == k) with
  | none =>
    rw [hf] at h
    cases h
  | some e =>
    rw [hf] at h
    have h2 : some (e.2, m.filter (fun x => x.1 != k)) = some (v, m1) := h
    have hinj := Option.some_inj.mp h2
    have hcomp := congrArg Prod.snd hinj
    refine ⟨hcomp.symm, ?_⟩
    have hmem := List.mem_of_find?_eq_some hf
    have hp : (e.1 == k) = true :=
      @List.find?_some (String × Nat) (fun x => x.1 == k) e m hf
    unfold mapHas
    rw [List.any_eq_true]
    exact ⟨e, hmem, hp⟩

/-- The drain loop collects at most one live entry per operation: the
number of collected entries for `a` plus `a`'s liveness in the map after
the drain is bounded by its liveness before it. -/
theorem drain_bound (now : Nat) (a : String) :
    ∀ (q : List PendingEntry) (m : AckMap),
      ((drain now q m).2.2.filter (fun e => e.operation_id == a)).length +
        has01 (drain now q m).2.1 a ≤ has01 m a
  | [], m => Nat.le_of_eq (Nat.zero_add _)
  | e :: rest, m => by
    by_cases ht : e.scheduled_time ≤ now
    · cases hpop : mapPop m e.operation_id with
      | none =>
        have ih := drain_bound now a rest m
        simp only [drain, if_pos ht, hpop]
        exact ih
      | some pm =>
        obtain ⟨v, m1⟩ := pm
        obtain ⟨hm1, hhas⟩ := mapPop_eq_of_some m m1 e.operation_id v hpop
        have ih := drain_bound now a rest m1
        rcases hdr : drain now rest m1 with ⟨q2, m2, c2⟩
        rw [hdr] at ih
        dsimp only at ih
        simp only [drain, if_pos ht, hpop, hdr]
        by_cases ha : e.operation_id = a
        · have hm1a : mapHas m1 a = false := by
            rw [hm1, ← ha]
            exact mapHas_filter_self m e.operation_id
          have h01 : has01 m1 a = 0 := by simp [has01, hm1a]
          have hma : has01 m a = 1 := by
            unfold has01
            rw [← ha, hhas]
            rfl
          rw [h01] at ih
          rw [List.filter_cons_of_pos (by simp [ha]), List.length_cons, hma]
          omega
        · have hm1a : has01 m1 a = has01 m a := by
            unfold has01
            rw [hm1, mapHas_filter_other m e.operation_id a (fun hk => ha hk.symm)]
          rw [hm1a] at ih
          rw [List.filter_cons_of_neg (by simp [ha])]
          exact ih
    · have hd : drain now (e :: rest) m = (e :: rest, m, []) := by
        simp only [drain, if_neg ht]
      rw [hd]
      simp

/-- Entries surviving the tombstone filter contribute at most one handler
call per collected entry of the operation. -/
theorem acked_filter_le (collected : List PendingEntry) (tombs : List Nat)
    (a : String) :
    (((collected.filter (fun e => !(e.eid ∈ tombs))).map
        (fun e => e.operation_id)).filter (fun x => x == a)).length ≤
      (collected.filter (fun e => e.operation_id == a)).length := by
  induction collected with
  | nil => simp
  | cons e rest ih =>
    by_cases hm : e.eid ∈ tombs
    · rw [List.filter_cons_of_neg (by simp [hm])]
      by_cases ha : e.operation_id = a
      · rw [List.filter_cons_of_pos (by simp [ha]), List.length_cons]
        omega
      · rw [List.filter_cons_of_neg (by simp [ha])]
        exact ih
    · rw [List.filter_cons_of_pos (by simp [hm]), List.map_cons]
      by_cases ha : e.operation_id = a
      · rw [List.filter_cons_of_pos (by simp [ha]),
          List.filter_cons_of_pos (by simp [ha]), List.length_cons,
          List.length_cons]
        omega
      · rw [List.filter_cons_of_neg (by simp [ha]),
          List.filter_cons_of_neg (by simp [ha])]
        exact ih

theorem schedCount_cons (e : AckEvent) (rest : List AckEvent) (a : String) :
    schedCount (e :: rest) a = schedCount [e] a + schedCount rest a := by
  cases e with
  | schedule b now =>
    simp only [schedCount]
    omega
  | complete b => simp [schedCount]
  | wake now => simp [schedCount]

theorem schedCount_append (xs ys : List AckEvent) (a : String) :
    schedCount (xs ++ ys) a = schedCount xs a + schedCount ys a := by
  induction xs with
  | nil => simp [schedCount]
  | cons e rest ih =>
    cases e with
    | schedule b now =>
      simp only [List.cons_append, schedCount]
      have ih2 : schedCount (rest.append ys) a = schedCount rest a + schedCount ys a := ih
      rw [ih2]
      omega
    | complete b =>
      simp only [List.cons_append, schedCount]
      exact ih
    | wake now =>
      simp only [List.cons_append, schedCount]
      exact ih

theorem run_append (s : AckState) (xs ys : List AckEvent) :
    run s (xs ++ ys) = run (run s xs) ys := by
  simp [run, List.foldl_append]

theorem fireCount_wake (s : AckState) (now : Nat) (a : String) :
    fireCount (step s (.wake now)) a + has01 (step s (.wake now)).mapping a ≤
      fireCount s a + has01 s.mapping a := by
  have hb := drain_bound now a s.queue s.mapping
  have hak := acked_filter_le (drain now s.queue s.mapping).2.2 s.tombs a
  rcases hdr : drain now s.queue s.mapping with ⟨q2, m2, c2⟩
  rw [hdr] at hb hak
  have hb2 : (c2.filter (fun e => e.operation_id == a)).length + has01 m2 a ≤
      has01 s.mapping a := hb
  have hak2 : (((c2.filter (fun e => !(e.eid ∈ s.tombs))).map
      (fun e => e.operation_id)).filter (fun x => x == a)).length ≤
      (c2.filter (fun e => e.operation_id == a)).length := hak
  set ackedList := (c2.filter (fun e => !(e.eid ∈ s.tombs))).map
    (fun e => e.operation_id) with hackedList
  have hstate : step s (.wake now) =
      { s with queue := q2, mapping := m2, fired := s.fired ++ ackedList } := by
    simp only [step, runOnce, hdr, hackedList]
  rw [hstate]
  simp only [fireCount, List.filter_append, List.length_append]
  simp only [fireCount] at hb2 hak2
  omega

theorem step_invariant (s : AckState) (e : AckEvent) (a : String) :
    fireCount (step s e) a + has01 (step s e).mapping a ≤
      fireCount s a + has01 s.mapping a + schedCount [e] a := by
  cases e with
  | schedule b now =>
    have hfire : fireCount (step s (.schedule b now)) a = fireCount s a := rfl
    have hmap : (step s (.schedule b now)).mapping = mapSet s.mapping b s.nextEid :=
      rfl
    by_cases hb : b = a
    · subst hb
      have h1 : has01 (mapSet s.mapping b s.nextEid) b ≤ 1 := has01_le_one _ _
      have h2 : schedCount [AckEvent.schedule b now] b = 1 := by
        simp [schedCount, List.filter]
      rw [hfire, hmap, h2]
      omega
    · have h1 : has01 (mapSet s.mapping b s.nextEid) a = has01 s.mapping a := by
        unfold has01
        rw [mapHas_mapSet_other s.mapping b a s.nextEid (fun hk => hb hk.symm)]
      rw [hfire, hmap, h1]
      omega
  | complete b =>
    have hsched : schedCount [AckEvent.complete b] a = 0 := by
      simp [schedCount, List.filter]
    rw [hsched]
    simp only [step, operationCompleted]
    cases hpop : mapPop s.mapping b with
    | none =>
      dsimp only
      omega
    | some pm =>
      obtain ⟨eid, m1⟩ := pm
      obtain ⟨hm1, -⟩ := mapPop_eq_of_some s.mapping m1 b eid hpop
      dsimp only
      have hle : has01 m1 a ≤ has01 s.mapping a := by
        by_cases hb : b = a
        · have hx : mapHas m1 a = false := by
            rw [hm1, ← hb]
            exact mapHas_filter_self s.mapping b
          simp [has01, hx]
        · have hx : mapHas m1 a = mapHas s.mapping a := by
            rw [hm1]
            exact mapHas_filter_other s.mapping b a (fun hk => hb hk.symm)
          simp [has01, hx]
      have hfc : fireCount { s with mapping := m1, tombs := eid :: s.tombs } a =
          fireCount s a := rfl
      rw [hfc]
      omega
  | wake now =>
    have hsched : schedCount [AckEvent.wake now] a = 0 := by
      simp [schedCount, List.filter]
    rw [hsched]
    have := fireCount_wake s now a
    omega

theorem run_invariant (events : List AckEvent) (s : AckState) (a : String) :
    fireCount (run s events) a + has01 (run s events).mapping a ≤
      fireCount s a + has01 s.mapping a + schedCount events a := by
  induction events generalizing s with
  | nil => simp [run, schedCount, List.filter]
  | cons e rest ih =>
    have h1 := step_invariant s e a
    have h2 := ih (step s e)
    have h3 := schedCount_cons e rest a
    have hrun : run s (e :: rest) = run (step s e) rest := rfl
    rw [hrun, h3]
    omega

/-- Once an operation is absent from the pending map and never
re-scheduled, no further ACK fires for it. -/
theorem run_no_fire (events : List AckEvent) (s : AckState) (a : String)
    (hm : mapHas s.mapping a = false) (hs : schedCount events a = 0) :
    fireCount (run s events) a = fireCount s a ∧
      mapHas (run s events).mapping a = false := by
  induction events generalizing s with
  | nil => exact ⟨rfl, hm⟩
  | cons e rest ih =>
    have hsc := schedCount_cons e rest a
    have he0 : schedCount [e] a = 0 := by omega
    have hr0 : schedCount rest a = 0 := by omega
    have hrun : run s (e :: rest) = run (step s e) rest := rfl
    have hstep : fireCount (step s e) a = fireCount s a ∧
        mapHas (step s e).mapping a = false := by
      cases e with
      | schedule b now =>
        have hba : b ≠ a := by
          intro hb
          subst hb
          simp [schedCount, List.filter] at he0
        refine ⟨rfl, ?_⟩
        show mapHas (mapSet s.mapping b s.nextEid) a = false
        rw [mapHas_mapSet_other s.mapping b a s.nextEid (fun hk => hba hk.symm)]
        exact hm
      | complete b =>
        simp only [step, operationCompleted]
        cases hpop : mapPop s.mapping b with
        | none => exact ⟨rfl, hm⟩
        | some pm =>
          obtain ⟨eid, m1⟩ := pm
          obtain ⟨hm1, -⟩ := mapPop_eq_of_some s.mapping m1 b eid hpop
          refine ⟨rfl, ?_⟩
          show mapHas m1 a = false
          by_cases hb : b = a
          · subst hb
            rw [hm1]
            exact mapHas_filter_self s.mapping b
          · rw [hm1, mapHas_filter_other s.mapping b a (fun hk => hb hk.symm)]
            exact hm
      | wake now =>
        have hb := drain_bound now a s.queue s.mapping
        have hak := acked_filter_le (drain now s.queue s.mapping).2.2 s.tombs a
        rcases hdr : drain now s.queue s.mapping with ⟨q2, m2, c2⟩
        rw [hdr] at hb hak
        have hb2 : (c2.filter (fun e => e.operation_id == a)).length + has01 m2 a ≤
            has01 s.mapping a := hb
        have hak2 : (((c2.filter (fun e => !(e.eid ∈ s.tombs))).map
            (fun e => e.operation_id)).filter (fun x => x == a)).length ≤
            (c2.filter (fun e => e.operation_id == a)).length := hak
        set ackedList := (c2.filter (fun e => !(e.eid ∈ s.tombs))).map
          (fun e => e.operation_id) with hackedList
        have h0 : has01 s.mapping a = 0 := by simp [has01, hm]
        have hc2 : (c2.filter (fun e => e.operation_id == a)).length = 0 := by
          omega
        have hm2f : mapHas m2 a = false := by
          by_cases hx : mapHas m2 a = true
          · rw [h0] at hb2
            simp [has01, hx] at hb2
          · simpa using hx
        have hstate : step s (.wake now) =
            { s with queue := q2, mapping := m2, fired := s.fired ++ ackedList } := by
          simp only [step, runOnce, hdr, hackedList]
        rw [hstate]
        constructor
        · simp only [fireCount, List.filter_append, List.length_append]
          omega
        · show mapHas m2 a = false
          exact hm2f
    have := ih (step s e) hstep.2 hr0
    rw [hrun]
    exact ⟨by rw [this.1, hstep.1], this.2⟩

end AckSender

/-- C4 counterexample: re-scheduling an operation after its ACK already
fired produces a second ACK for the same `operation_id` — the sequence
`schedule_ack("a")`, wake, `schedule_ack("a")`, wake drives the handler
twice, so over arbitrary call sequences the handler is not invoked at most
once per operation id. -/
theorem c4_counterexample_reschedule_fires_twice :
    AckSender.fireCount (AckSender.run (AckSender.initState 45)
      [.schedule "a" 0, .wake 50, .schedule "a" 60, .wake 110]) "a" = 2 := by
  decide

/-- C4 (amended): for every operation id that is scheduled at most once in
a call/wake sequence, the ACK handler is invoked at most once for it; and
if `operation_completed` is called after the (single) `schedule_ack` but
before any drain collected the entry (no ACK fired in the prefix), no ACK
is ever emitted for it.  Only a re-issued `schedule_ack` after a fired ACK
can produce a second ACK. -/
theorem c4_ack_at_most_once_per_schedule (interval : Nat) (a : String)
    (trace t0 t1 t2 : List AckSender.AckEvent) (n : Nat) :
    (AckSender.schedCount trace a ≤ 1 →
      AckSender.fireCount (AckSender.run (AckSender.initState interval) trace) a ≤ 1) ∧
    (trace = t0 ++ AckSender.AckEvent.schedule a n ::
        t1 ++ AckSender.AckEvent.complete a :: t2 →
      AckSender.schedCount trace a ≤ 1 →
      AckSender.fireCount (AckSender.run (AckSender.initState interval)
        (t0 ++ AckSender.AckEvent.schedule a n :: t1)) a = 0 →
      AckSender.fireCount (AckSender.run (AckSender.initState interval) trace) a = 0) := by
  constructor
  · intro hs
    have h := AckSender.run_invariant trace (AckSender.initState interval) a
    have h0 : AckSender.fireCount (AckSender.initState interval) a = 0 := rfl
    have h1 : AckSender.has01 (AckSender.initState interval).mapping a = 0 := rfl
    omega
  · intro htr hs hpre
    have hsplit : t0 ++ AckSender.AckEvent.schedule a n ::
        t1 ++ AckSender.AckEvent.complete a :: t2 =
        (t0 ++ AckSender.AckEvent.schedule a n :: t1) ++
          (AckSender.AckEvent.complete a :: t2) := by
      simp [List.append_assoc]
    -- the single schedule for `a` sits in the prefix, so t2 has none
    have hcount : AckSender.schedCount t2 a = 0 := by
      rw [htr] at hs
      rw [hsplit, AckSender.schedCount_append, AckSender.schedCount_cons,
        AckSender.schedCount_append, AckSender.schedCount_cons] at hs
      have hone : AckSender.schedCount [AckSender.AckEvent.schedule a n] a = 1 := by
        simp [AckSender.schedCount, List.filter]
      rw [hone] at hs
      omega
    rw [htr, hsplit, AckSender.run_append]
    set s1 := AckSender.run (AckSender.initState interval)
      (t0 ++ AckSender.AckEvent.schedule a n :: t1) with hs1
    have hrun2 : AckSender.run s1 (AckSender.AckEvent.complete a :: t2) =
        AckSender.run (AckSender.step s1 (.complete a)) t2 := rfl
    rw [hrun2]
    set s2 := AckSender.step s1 (.complete a) with hs2
    have hclear : AckSender.mapHas s2.mapping a = false := by
      rw [hs2]
      simp only [AckSender.step, AckSender.operationCompleted]
      cases hpop : AckSender.mapPop s1.mapping a with
      | none =>
        exact AckSender.not_has_of_mapPop_none s1.mapping a hpop
      | some pm =>
        obtain ⟨eid, m1⟩ := pm
        obtain ⟨hm1, -⟩ := AckSender.mapPop_eq_of_some s1.mapping m1 a eid hpop
        show AckSender.mapHas m1 a = false
        rw [hm1]
        exact AckSender.mapHas_filter_self s1.mapping a
    have hfc2 : AckSender.fireCount s2 a = 0 := by
      rw [hs2]
      simp only [AckSender.step, AckSender.operationCompleted]
      cases hpop : AckSender.mapPop s1.mapping a with
      | none => exact hpre
      | some pm =>
        obtain ⟨eid, m1⟩ := pm
        show AckSender.fireCount { s1 with mapping := m1, tombs := eid :: s1.tombs } a = 0
        exact hpre
    have := AckSender.run_no_fire t2 s2 a hclear hcount
    rw [this.1, hfc2]

/-- Witness for C4: schedule, complete before the wake, then wake — no ACK
fires, and the at-most-once bound holds. -/
theorem c4_ack_at_most_once_per_schedule_witness :
    AckSender.fireCount (AckSender.run (AckSender.initState 45)
      [.schedule "a" 0, .complete "a", .wake 100]) "a" ≤ 1 ∧
    AckSender.fireCount (AckSender.run (AckSender.initState 45)
      [.schedule "a" 0, .complete "a", .wake 100]) "a" = 0 := by
  have h := c4_ack_at_most_once_per_schedule 45 "a"
    [.schedule "a" 0, .complete "a", .wake 100] [] [] [.wake 100] 0
  exact ⟨h.1 (by decide), h.2 rfl (by decide) (by decide)⟩

end Agent
